import Mathlib

/-!
Verification development for the intelligent LLM router backend.

This file gives a shallow embedding, in Lean 4, of the decision-and-dispatch
core of the router: the heuristic classifier, the routing table, the cost
model, the admission (serving-mode) controller, the dispatcher fallback
logic, and the multi-backend comparison streamer.  Python floats are
modelled as rationals; Python dictionaries with fixed enum keys are
modelled as total functions; randomness and external collaborators (the
regex engine, the mock latency/template draws, the spend ledger and the
clock) are modelled as explicit input parameters, as the design document
itself prescribes for testability.  `round(x, n)` from Python is modelled
as rounding `x * 10^n` to the nearest integer; Python uses banker's
rounding at exact ties, Mathlib's `round` takes ties upward, a divergence
only at exact half-way points, which no statement below touches.
-/

/-- Enumeration of task types, from `models.py` (`TaskType`). -/
inductive TaskType where
  | CODE
  | CREATIVE
  | MATH
  | SUMMARIZATION
  | TRANSLATION
  | QA
  | MULTI_STEP
deriving DecidableEq

/-- Enumeration of backend model names, from `models.py` (`ModelName`). -/
inductive ModelName where
  | CLAUDE_3_5_SONNET
  | GPT_4O
  | GEMINI_1_5_PRO
  | DEEPSEEK_V3
  | GPT_4O_MINI
  | CLAUDE_3_HAIKU
deriving DecidableEq

/-- Enumeration of complexity bands, from `models.py` (`ComplexityBand`). -/
inductive ComplexityBand where
  | LOW
  | MEDIUM
  | HIGH
deriving DecidableEq

instance : Fintype ModelName where
  elems := {ModelName.CLAUDE_3_5_SONNET, ModelName.GPT_4O, ModelName.GEMINI_1_5_PRO,
            ModelName.DEEPSEEK_V3, ModelName.GPT_4O_MINI, ModelName.CLAUDE_3_HAIKU}
  complete := by intro x; cases x <;> decide

instance : Fintype TaskType where
  elems := {TaskType.CODE, TaskType.CREATIVE, TaskType.MATH, TaskType.SUMMARIZATION,
            TaskType.TRANSLATION, TaskType.QA, TaskType.MULTI_STEP}
  complete := by intro x; cases x <;> decide

/-- Python `round(x, n)` modelled over the rationals: round `x * 10^n` to the
nearest integer and scale back. -/
def pyround (x : ℚ) (n : ℕ) : ℚ := ((round (x * 10 ^ n) : ℤ) : ℚ) / 10 ^ n

-- ---------------------------------------------------------------------------
-- router.py
-- ---------------------------------------------------------------------------

/-- Cost per 1K tokens in cents, from `router.py` (`MODEL_COSTS`). -/
def MODEL_COSTS : ModelName → ℚ
  | ModelName.CLAUDE_3_5_SONNET => 30 / 100
  | ModelName.GPT_4O => 25 / 100
  | ModelName.GEMINI_1_5_PRO => 18 / 100
  | ModelName.DEEPSEEK_V3 => 14 / 100
  | ModelName.GPT_4O_MINI => 15 / 1000
  | ModelName.CLAUDE_3_HAIKU => 8 / 1000

/-- Routing matrix `(task_type, complexity_band) -> model`, from `router.py`
(`ROUTING_MATRIX`).  The Python dict is total over both enumerations, so it is
embedded as a total function. -/
def ROUTING_MATRIX : TaskType → ComplexityBand → ModelName
  | TaskType.CODE, ComplexityBand.LOW => ModelName.GPT_4O_MINI
  | TaskType.CODE, ComplexityBand.MEDIUM => ModelName.CLAUDE_3_5_SONNET
  | TaskType.CODE, ComplexityBand.HIGH => ModelName.CLAUDE_3_5_SONNET
  | TaskType.MATH, ComplexityBand.LOW => ModelName.GPT_4O_MINI
  | TaskType.MATH, ComplexityBand.MEDIUM => ModelName.DEEPSEEK_V3
  | TaskType.MATH, ComplexityBand.HIGH => ModelName.DEEPSEEK_V3
  | TaskType.CREATIVE, ComplexityBand.LOW => ModelName.GPT_4O_MINI
  | TaskType.CREATIVE, ComplexityBand.MEDIUM => ModelName.GPT_4O
  | TaskType.CREATIVE, ComplexityBand.HIGH => ModelName.CLAUDE_3_5_SONNET
  | TaskType.SUMMARIZATION, ComplexityBand.LOW => ModelName.CLAUDE_3_HAIKU
  | TaskType.SUMMARIZATION, ComplexityBand.MEDIUM => ModelName.GPT_4O_MINI
  | TaskType.SUMMARIZATION, ComplexityBand.HIGH => ModelName.GEMINI_1_5_PRO
  | TaskType.QA, ComplexityBand.LOW => ModelName.CLAUDE_3_HAIKU
  | TaskType.QA, ComplexityBand.MEDIUM => ModelName.GPT_4O_MINI
  | TaskType.QA, ComplexityBand.HIGH => ModelName.GPT_4O
  | TaskType.TRANSLATION, ComplexityBand.LOW => ModelName.GPT_4O_MINI
  | TaskType.TRANSLATION, ComplexityBand.MEDIUM => ModelName.GPT_4O
  | TaskType.TRANSLATION, ComplexityBand.HIGH => ModelName.GPT_4O
  | TaskType.MULTI_STEP, ComplexityBand.LOW => ModelName.GPT_4O_MINI
  | TaskType.MULTI_STEP, ComplexityBand.MEDIUM => ModelName.CLAUDE_3_5_SONNET
  | TaskType.MULTI_STEP, ComplexityBand.HIGH => ModelName.CLAUDE_3_5_SONNET

/-- The three cells of a task type's row of the routing matrix (the backends
the fixed 7x3 table can produce for that task type). -/
def matrixRow (t : TaskType) : List ModelName :=
  [ROUTING_MATRIX t ComplexityBand.LOW,
   ROUTING_MATRIX t ComplexityBand.MEDIUM,
   ROUTING_MATRIX t ComplexityBand.HIGH]

/-- Fallback order for retry logic, from `router.py` (`FALLBACK_ORDER`),
embedded as the association list in source order; the dispatcher consults it
with `.get`, which the association-list lookup mirrors. -/
def FALLBACK_ORDER : List (ModelName × ModelName) :=
  [(ModelName.CLAUDE_3_5_SONNET, ModelName.GPT_4O),
   (ModelName.GPT_4O, ModelName.CLAUDE_3_5_SONNET),
   (ModelName.GEMINI_1_5_PRO, ModelName.GPT_4O),
   (ModelName.DEEPSEEK_V3, ModelName.GPT_4O_MINI),
   (ModelName.GPT_4O_MINI, ModelName.CLAUDE_3_HAIKU),
   (ModelName.CLAUDE_3_HAIKU, ModelName.GPT_4O_MINI)]

/-- `FALLBACK_ORDER.get(model)` from Python: association-list lookup. -/
def fallback_get (m : ModelName) : Option ModelName :=
  (FALLBACK_ORDER.find? (fun p => p.1 = m)).map Prod.snd

/-- `complexity_to_band` from `router.py`. -/
def complexity_to_band (complexity : ℚ) : ComplexityBand :=
  if complexity ≤ 3 then ComplexityBand.LOW
  else if complexity ≤ 6 then ComplexityBand.MEDIUM
  else ComplexityBand.HIGH

/-- `select_model` from `router.py`: the model component of the selection.
The source also returns a static human-readable justification string per
backend (presentation only); the routing decision itself is the model. -/
def select_model (task_type : TaskType) (complexity : ℚ) : ModelName :=
  ROUTING_MATRIX task_type (complexity_to_band complexity)

/-- `calculate_cost` from `router.py`: cents, rounded to 4 decimal places. -/
def calculate_cost (model : ModelName) (tokens : ℕ) : ℚ :=
  pyround (MODEL_COSTS model * tokens / 1000) 4

-- ---------------------------------------------------------------------------
-- config.py  (admission controller)
-- ---------------------------------------------------------------------------

/-- Daily spend cap in cents, from `config.py` (`DAILY_SPEND_CAP_CENTS`). -/
def DAILY_SPEND_CAP_CENTS : ℚ := 200

/-- The module-level mutable state of `config.py`: the loaded credential and
the forced-demo flag with the calendar day it was set.  Calendar days are
modelled as natural numbers (the injected clock of the design document). -/
structure ConfigState where
  apiKey : Option String
  forcedDemo : Bool
  forcedDemoDate : Option ℕ
deriving DecidableEq

/-- `get_mode` from `config.py`, as a state transformer over `ConfigState`
with the current calendar day injected.  Returns the mode string and the
updated state.  Mirrors the source exactly: no credential short-circuits to
demo before any flag reset; the forced-demo flag is cleared lazily on the
first evaluation on a day different from the day it was set. -/
def get_mode (s : ConfigState) (today : ℕ) : String × ConfigState :=
  if s.apiKey = none then ("demo", s)
  else
    let s' := if s.forcedDemo ∧ s.forcedDemoDate ≠ some today
      then { s with forcedDemo := false, forcedDemoDate := none }
      else s
    if s'.forcedDemo then ("demo", s') else ("live", s')

/-- `check_spend_cap` from `config.py`, with the ledger query (cumulative
cost of completions recorded today) injected as `spent`.  Returns whether
spend is under the cap, and the updated state; sets the forced-demo flag
idempotently when the cap is met or exceeded. -/
def check_spend_cap (s : ConfigState) (today : ℕ) (spent : ℚ) : Bool × ConfigState :=
  if DAILY_SPEND_CAP_CENTS ≤ spent then
    (false,
      if s.forcedDemo then s
      else { s with forcedDemo := true, forcedDemoDate := some today })
  else (true, s)

-- ---------------------------------------------------------------------------
-- classifier.py
-- ---------------------------------------------------------------------------

/-- Python `str.split()` with no separator: split on runs of whitespace,
discarding empty pieces.  Accumulator-based over the character list. -/
def wordsAux : List Char → List Char → List (List Char)
  | [], acc => if acc.isEmpty then [] else [acc.reverse]
  | c :: rest, acc =>
    if c.isWhitespace then
      if acc.isEmpty then wordsAux rest [] else acc.reverse :: wordsAux rest []
    else wordsAux rest (c :: acc)

/-- The word list of a prompt, as `prompt.split()` computes it. -/
def pywords (s : String) : List (List Char) := wordsAux s.data []

/-- `prompt.lower()` as a character list. -/
def lowerChars (s : String) : List Char := s.data.map Char.toLower

/-- Keyword table of `TASK_PATTERNS` in `classifier.py` (the `"keywords"`
entry per task type).  The `"patterns"` entries are applied through the
external regex engine `re.search`, which is modelled as an injected hit
counter (see `category_score`). -/
def KEYWORDS : TaskType → List String
  | TaskType.CODE =>
      ["function", "code", "program", "implement", "debug", "refactor",
       "algorithm", "api", "class", "method", "variable", "loop",
       "syntax", "compile", "runtime", "database", "query", "sql",
       "python", "javascript", "typescript", "java", "rust", "golang",
       "html", "css", "react", "django", "flask", "fastapi"]
  | TaskType.CREATIVE =>
      ["write", "story", "poem", "essay", "creative", "fiction",
       "character", "narrative", "dialogue", "metaphor", "imagine",
       "compose", "draft", "blog", "article", "screenplay", "lyric"]
  | TaskType.MATH =>
      ["calculate", "solve", "equation", "math", "algebra", "calculus",
       "probability", "statistics", "integral", "derivative", "proof",
       "theorem", "formula", "geometric", "trigonometry", "matrix",
       "vector", "optimization", "linear", "quadratic"]
  | TaskType.SUMMARIZATION =>
      ["summarize", "summary", "tldr", "brief", "condense", "overview",
       "key points", "main ideas", "recap", "digest", "abstract",
       "shorten", "highlights"]
  | TaskType.TRANSLATION =>
      ["translate", "translation", "convert", "language", "spanish",
       "french", "german", "chinese", "japanese", "korean", "arabic",
       "portuguese", "italian", "russian", "hindi", "localize"]
  | TaskType.QA =>
      ["what", "who", "where", "when", "why", "how", "explain",
       "define", "describe", "tell", "meaning", "difference",
       "compare", "example", "does", "is", "are", "can"]
  | TaskType.MULTI_STEP =>
      ["step", "steps", "first", "then", "next", "finally",
       "process", "workflow", "pipeline", "plan", "strategy",
       "guide", "tutorial", "walkthrough", "instructions", "procedure"]

/-- Category weight of `TASK_PATTERNS` (`"weight"`): 0.8 for QA, 1.0 else. -/
def CATEGORY_WEIGHT : TaskType → ℚ
  | TaskType.QA => 8 / 10
  | _ => 1

/-- Iteration order of the `TASK_PATTERNS` dictionary (Python dictionaries
iterate in insertion order). -/
def TASK_ORDER : List TaskType :=
  [TaskType.CODE, TaskType.CREATIVE, TaskType.MATH, TaskType.SUMMARIZATION,
   TaskType.TRANSLATION, TaskType.QA, TaskType.MULTI_STEP]

/-- `sum(1 for kw in keywords if kw in prompt_lower)`: keyword substring
hits against the lowercased prompt. -/
def keyword_hits (pl : List Char) (t : TaskType) : ℕ :=
  (KEYWORDS t).countP (fun kw => decide (kw.data <:+: pl))

/-- One category score of `detect_task_type`:
`(keyword_hits * 1.0 + regex_hits * 2.0) * weight`.  The regex hit count
(`sum(1 for pat in patterns if re.search(pat, prompt_lower))`) is the result
of the external regex engine and is injected as `rx`. -/
def category_score (rx : TaskType → ℕ) (pl : List Char) (t : TaskType) : ℚ :=
  ((keyword_hits pl t : ℚ) * 1 + (rx t : ℚ) * 2) * CATEGORY_WEIGHT t

/-- The `scores` dictionary of `detect_task_type`, in iteration order. -/
def scoresList (rx : TaskType → ℕ) (pl : List Char) : List (TaskType × ℚ) :=
  TASK_ORDER.map (fun t => (t, category_score rx pl t))

/-- Stable descending insertion for score sorting: the incoming element
passes only strictly smaller scores, so equal scores keep original order,
exactly as the stable Python `sorted(..., reverse=True)`. -/
def insertDesc (x : TaskType × ℚ) : List (TaskType × ℚ) → List (TaskType × ℚ)
  | [] => [x]
  | y :: ys => if y.2 < x.2 then x :: y :: ys else y :: insertDesc x ys

/-- `sorted(scores.items(), key=score, reverse=True)`: stable descending. -/
def sortScoresDesc (l : List (TaskType × ℚ)) : List (TaskType × ℚ) :=
  l.foldl (fun acc x => insertDesc x acc) []

/-- `detect_task_type` from `classifier.py`: returns `(task_type,
confidence)`.  If the top score is zero the QA default at confidence 0.3 is
returned; otherwise confidence is
`round(min(1.0, top / (top + second + 0.001)), 3)`. -/
def detect_task_type (rx : TaskType → ℕ) (prompt : String) : TaskType × ℚ :=
  let ss := sortScoresDesc (scoresList rx (lowerChars prompt))
  let top := ss.getD 0 (TaskType.QA, 0)
  let second_score := (ss.getD 1 (TaskType.QA, 0)).2
  if top.2 = 0 then (TaskType.QA, 3 / 10)
  else (top.1, pyround (min 1 (top.2 / (top.2 + second_score + 1 / 1000))) 3)

/-- `REASONING_WORDS` from `classifier.py`. -/
def REASONING_WORDS : List String :=
  ["because", "therefore", "however", "although", "whereas",
   "if", "then", "else", "unless", "assuming",
   "compare", "contrast", "analyze", "evaluate", "assess",
   "pros and cons", "trade-off", "implications", "consequences",
   "on the other hand", "alternatively", "furthermore", "moreover",
   "considering", "given that", "in light of"]

/-- `DOMAIN_VOCAB` from `classifier.py`, flattened in dictionary order
(the source iterates `DOMAIN_VOCAB.values()` and sums the per-list hits,
which equals the hit count over the concatenation). -/
def DOMAIN_VOCAB_ALL : List String :=
  ["diagnosis", "symptom", "treatment", "patient", "clinical", "pathology",
   "pharmaceutical", "dosage", "prognosis", "etiology", "comorbidity",
   "jurisdiction", "statute", "liability", "plaintiff", "defendant",
   "precedent", "tort", "breach", "contractual", "indemnity", "arbitration",
   "portfolio", "derivative", "hedge", "amortization", "equity",
   "dividend", "liquidity", "volatility", "arbitrage", "securities",
   "hypothesis", "methodology", "empirical", "quantitative", "peer-reviewed",
   "replication", "variance", "coefficient", "correlation", "longitudinal"]

/-- `TASK_BASE_COMPLEXITY` from `classifier.py`; the dictionary is total
over `TaskType`, so the 5.0 default of `.get` is unreachable. -/
def TASK_BASE_COMPLEXITY : TaskType → ℚ
  | TaskType.CODE => 6
  | TaskType.CREATIVE => 5
  | TaskType.MATH => 7
  | TaskType.SUMMARIZATION => 3
  | TaskType.TRANSLATION => 4
  | TaskType.QA => 3
  | TaskType.MULTI_STEP => 7

/-- Context back-references checked by Signal 5 of `compute_complexity`. -/
def CONTEXT_REFS : List String :=
  ["above", "previous", "earlier", "mentioned", "as shown", "given the"]

/-- The six intermediate signals of `compute_complexity`, each rounded to
two decimals in the source before being exposed. -/
structure Signals where
  token_length : ℚ
  task_type_match : ℚ
  reasoning_depth : ℚ
  domain_specificity : ℚ
  context_needs : ℚ
  vocabulary_complexity : ℚ
deriving DecidableEq

/-- `compute_complexity` from `classifier.py`: the complexity score in
[1, 10] together with the six-signal breakdown. -/
def compute_complexity (prompt : String) (task_type : TaskType)
    (confidence : ℚ) : ℚ × Signals :=
  let ws := pywords prompt
  let word_count := ws.length
  let pl := lowerChars prompt
  let token_length := min 10 ((word_count : ℚ) / 50 * 10)
  let task_type_match := TASK_BASE_COMPLEXITY task_type * confidence
  let reasoning_hits := REASONING_WORDS.countP (fun w => decide (w.data <:+: pl))
  let reasoning_depth := min 10 ((reasoning_hits : ℚ) * (3 / 2))
  let domain_hits := DOMAIN_VOCAB_ALL.countP (fun w => decide (w.data <:+: pl))
  let domain_specificity := min 10 ((domain_hits : ℚ) * (5 / 2))
  let ref_hits := CONTEXT_REFS.countP (fun w => decide (w.data <:+: pl))
  let newline_count := prompt.data.countP (fun c => c = '\n')
  let context_score := (ref_hits : ℚ) * 2
    + (if 3 < newline_count then (2 : ℚ) else 0)
    + (if 200 < word_count then (3 : ℚ) else 0)
  let context_needs := min 10 context_score
  let avg_word_len := ((ws.map List.length).sum : ℚ) / (max 1 word_count : ℕ)
  let vocabulary_complexity := max 0 (min 10 ((avg_word_len - 3) * (5 / 2)))
  let signals : Signals :=
    { token_length := pyround token_length 2
      task_type_match := pyround task_type_match 2
      reasoning_depth := pyround reasoning_depth 2
      domain_specificity := pyround domain_specificity 2
      context_needs := pyround context_needs 2
      vocabulary_complexity := pyround vocabulary_complexity 2 }
  let raw := signals.token_length * (1 / 5) + signals.task_type_match * (3 / 20)
    + signals.reasoning_depth * (1 / 4) + signals.domain_specificity * (3 / 20)
    + signals.context_needs * (3 / 20) + signals.vocabulary_complexity * (1 / 10)
  (max 1 (min 10 (pyround raw 1)), signals)

/-- The value object returned by `classify`. -/
structure ClassifyResult where
  task_type : TaskType
  complexity : ℚ
  confidence : ℚ
  signals : Signals
deriving DecidableEq

/-- `classify` from `classifier.py`: the full classification pipeline.  The
injected `rx` stands for the external regex engine hit counts; the source
function has no other effects, so the embedding being a pure function makes
determinism (identical output on identical input) hold by construction. -/
def classify (rx : TaskType → ℕ) (prompt : String) : ClassifyResult :=
  let tc := detect_task_type rx prompt
  let cs := compute_complexity prompt tc.1 tc.2
  { task_type := tc.1, complexity := cs.1, confidence := tc.2, signals := cs.2 }

-- ---------------------------------------------------------------------------
-- gateway.py  (mock completion provider)
-- ---------------------------------------------------------------------------

/-- The random draws one `generate_completion` call consumes: the simulated
failure draw (`random.random() < FAILURE_RATE`), the simulated latency draw
(`random.randint` within the per-model range), and the selected response
template (`random.choice` over the task templates). -/
structure GatewayDraw where
  fails : Bool
  latency : ℕ
  text : String

/-- The `{response_text, latency_ms, tokens_used}` dictionary a gateway
call returns. -/
structure GatewayResult where
  response_text : String
  latency_ms : ℕ
  tokens_used : ℕ
deriving DecidableEq

/-- `_estimate_tokens` from `gateway.py`: `max(10, int(len(text.split()) *
0.75))`; `int` truncates, and `n * 0.75` is `3 * n / 4`, so the estimate is
modelled with floor division. -/
def estimate_tokens (text : String) : ℕ :=
  max 10 (3 * (pywords text).length / 4)

/-- `generate_completion` from `gateway.py`: raises (returns `none`) when
the failure draw fires, otherwise returns the drawn template with the drawn
latency and the estimated token count. -/
def generate_completion (draw : GatewayDraw) : Option GatewayResult :=
  if draw.fails then none
  else some { response_text := draw.text, latency_ms := draw.latency,
              tokens_used := estimate_tokens draw.text }

-- ---------------------------------------------------------------------------
-- main.py  (dispatcher, non-streaming path)
-- ---------------------------------------------------------------------------

/-- `_non_stream_response` from `main.py`, with the backend-completion
collaborator injected as `call` (`none` models a raised provider error).
Returns the outcome — `some (backend, result)` with the backend the result
is attributed to, or `none` for a surfaced failure (the 503 when no
fallback entry exists, or the uncaught error of the fallback call) — paired
with the trace of backend invocations made, in order. -/
def non_stream_dispatch (call : ModelName → Option GatewayResult)
    (model : ModelName) : Option (ModelName × GatewayResult) × List ModelName :=
  match call model with
  | some r => (some (model, r), [model])
  | none =>
    match fallback_get model with
    | none => (none, [model])
    | some fb =>
      match call fb with
      | some r => (some (fb, r), [model, fb])
      | none => (none, [model, fb])

-- ---------------------------------------------------------------------------
-- ab_testing.py
-- ---------------------------------------------------------------------------

/-- `DEFAULT_AB_MODELS` from `ab_testing.py`. -/
def DEFAULT_AB_MODELS : TaskType → List ModelName
  | TaskType.CODE =>
      [ModelName.CLAUDE_3_5_SONNET, ModelName.GPT_4O, ModelName.GPT_4O_MINI]
  | TaskType.MATH =>
      [ModelName.DEEPSEEK_V3, ModelName.GPT_4O, ModelName.GPT_4O_MINI]
  | TaskType.CREATIVE =>
      [ModelName.CLAUDE_3_5_SONNET, ModelName.GPT_4O, ModelName.GPT_4O_MINI]
  | TaskType.SUMMARIZATION =>
      [ModelName.GEMINI_1_5_PRO, ModelName.GPT_4O_MINI, ModelName.CLAUDE_3_HAIKU]
  | TaskType.QA =>
      [ModelName.GPT_4O, ModelName.GPT_4O_MINI, ModelName.CLAUDE_3_HAIKU]
  | TaskType.TRANSLATION =>
      [ModelName.GPT_4O, ModelName.GPT_4O_MINI, ModelName.CLAUDE_3_5_SONNET]
  | TaskType.MULTI_STEP =>
      [ModelName.CLAUDE_3_5_SONNET, ModelName.GPT_4O, ModelName.GPT_4O_MINI]

/-- `get_ab_models` from `ab_testing.py`.  `requested and len(requested) >= 2`
is the truthiness test (`requested` not `None` and nonempty) conjoined with
the length test; `requested[:3]` is `List.take 3`.  The `.get` default
`[GPT_4O, GPT_4O_MINI]` of the source is dead code because
`DEFAULT_AB_MODELS` covers every task type, so the total function is used. -/
def get_ab_models (task_type : TaskType) (requested : Option (List ModelName)) :
    List ModelName :=
  match requested with
  | some l => if l ≠ [] ∧ 2 ≤ l.length then l.take 3 else DEFAULT_AB_MODELS task_type
  | none => DEFAULT_AB_MODELS task_type

/-- `model.value` from `models.py` (`ModelName` is a string enum). -/
def MODEL_VALUE : ModelName → String
  | ModelName.CLAUDE_3_5_SONNET => "claude-3.5-sonnet"
  | ModelName.GPT_4O => "gpt-4o"
  | ModelName.GEMINI_1_5_PRO => "gemini-1.5-pro"
  | ModelName.DEEPSEEK_V3 => "deepseek-v3"
  | ModelName.GPT_4O_MINI => "gpt-4o-mini"
  | ModelName.CLAUDE_3_HAIKU => "claude-3-haiku"

/-- One entry of the `results` list `run_ab_test` returns (also the shape
of an `insert_ab_result` record, minus the identifiers). -/
structure ABResultRow where
  model : ModelName
  response_text : String
  latency_ms : ℕ
  tokens_used : ℕ
  cost_cents : ℚ
  error : Bool
deriving DecidableEq

/-- The `run_single` closure inside `run_ab_test`: on a gateway result,
build the success row with the calculated cost; on a raised exception
(injected as `Except.error` carrying the exception class name), build the
error row with zeroed metrics and `error = True`.  Success rows carry no
`error` key in the source, modelled as `error = false`. -/
def run_single (m : ModelName) (res : Except String GatewayResult) : ABResultRow :=
  match res with
  | Except.ok r =>
      { model := m, response_text := r.response_text, latency_ms := r.latency_ms,
        tokens_used := r.tokens_used, cost_cents := calculate_cost m r.tokens_used,
        error := false }
  | Except.error e =>
      { model := m,
        response_text := "[Error: " ++ MODEL_VALUE m ++ " failed — " ++ e ++ "]",
        latency_ms := 0, tokens_used := 0, cost_cents := 0, error := true }

/-- The `results` list of `run_ab_test`: `asyncio.gather` over `run_single`
per requested model preserves the order and arity of the `models` list. -/
def run_ab_test_results (models : List ModelName)
    (res : ModelName → Except String GatewayResult) : List ABResultRow :=
  models.map (fun m => run_single m (res m))

-- ---------------------------------------------------------------------------
-- ab_testing.py, streaming path (stream_ab_test)
-- ---------------------------------------------------------------------------

/-- Payload of a `model_done` SSE event: latency, token count, cost and the
failure flag (absent, hence `false`, for successful backends). -/
structure DonePayload where
  model : ModelName
  latency_ms : ℕ
  tokens_used : ℕ
  cost_cents : ℚ
  error : Bool
deriving DecidableEq

/-- One item pushed to the shared `asyncio.Queue` by a `stream_model`
task: a text chunk or the per-backend completion marker. -/
inductive QItem where
  | chunk (model : ModelName) (content : String)
  | model_done (payload : DonePayload)
deriving DecidableEq

/-- One observed execution of a `stream_model` task: the model it serves,
the chunk contents it pushed (all chunks of its generator, or the prefix
consumed before its generator raised), and whether it failed, with the
latency and token count of its final marker when it succeeded. -/
structure TaskRun where
  model : ModelName
  chunks : List String
  failed : Bool
  latency_ms : ℕ
  tokens_used : ℕ

/-- The `model_done` payload a `stream_model` task pushes: zeroed metrics
with `error: True` from the exception handler on failure, otherwise the
final metrics with the calculated cost. -/
def donePayload (t : TaskRun) : DonePayload :=
  if t.failed then
    { model := t.model, latency_ms := 0, tokens_used := 0, cost_cents := 0,
      error := true }
  else
    { model := t.model, latency_ms := t.latency_ms, tokens_used := t.tokens_used,
      cost_cents := calculate_cost t.model t.tokens_used, error := false }

/-- The full sequence a `stream_model` task pushes onto the shared queue:
its chunks in production order, then exactly one completion marker (pushed
by the success path or by the exception handler). -/
def taskQueueItems (t : TaskRun) : List QItem :=
  t.chunks.map (QItem.chunk t.model) ++ [QItem.model_done (donePayload t)]

/-- `Merge tasks queue`: `queue` is an interleaving of the per-task
sequences `tasks` that preserves each task's own order — the exact
guarantee of fan-in through one shared FIFO queue with one consumer. -/
inductive Merge {α : Type} : List (List α) → List α → Prop where
  | nil (ls : List (List α)) (h : ∀ l ∈ ls, l = []) : Merge ls []
  | step (ls : List (List α)) (i : ℕ) (hi : i < ls.length) (x : α)
      (xs : List α) (out : List α) (hhead : ls[i] = x :: xs)
      (hrest : Merge (ls.set i xs) out) : Merge ls (x :: out)

/-- The public SSE events of `stream_ab_test` (payload fields that matter
to the stated properties; the JSON serialisation is presentation). -/
inductive SSEEvent where
  | start (test_id : String) (models : List ModelName)
  | chunk (model : ModelName) (content : String)
  | model_done (payload : DonePayload)
  | complete (test_id : String)
deriving DecidableEq

/-- How the draining loop re-emits one queue item. -/
def qitemEvent : QItem → SSEEvent
  | QItem.chunk m c => SSEEvent.chunk m c
  | QItem.model_done p => SSEEvent.model_done p

/-- Whether a queue item is a completion marker. -/
def isDoneItem : QItem → Bool
  | QItem.chunk _ _ => false
  | QItem.model_done _ => true

/-- The draining loop of `stream_ab_test`: consume the queue in order while
`models_done < total`, re-emitting chunks as `chunk` events and markers as
`model_done` events while counting finished backends; stop once the count
reaches `total` (or the queue is exhausted, the case the source covers with
its bounded wait plus task-liveness re-check). -/
def drainLoop (total : ℕ) : List QItem → ℕ → List SSEEvent
  | [], _ => []
  | it :: rest, k =>
    if total ≤ k then []
    else
      match it with
      | QItem.chunk m c => SSEEvent.chunk m c :: drainLoop total rest k
      | QItem.model_done p => SSEEvent.model_done p :: drainLoop total rest (k + 1)

/-- The full public event sequence of one `stream_ab_test` run: the `start`
event, the drained queue, and the single `complete` event emitted after the
drain and the final gather. -/
def stream_ab_test_events (test_id : String) (models : List ModelName)
    (queue : List QItem) : List SSEEvent :=
  SSEEvent.start test_id models :: (drainLoop models.length queue 0
    ++ [SSEEvent.complete test_id])

/-- Event classifiers for the stated counting properties. -/
def isDoneEvent : SSEEvent → Bool
  | SSEEvent.model_done _ => true
  | _ => false

/-- Whether an event is the terminal `complete` event. -/
def isCompleteEvent : SSEEvent → Bool
  | SSEEvent.complete _ => true
  | _ => false

/-- The backend an event belongs to, if any. -/
def eventModel : SSEEvent → Option ModelName
  | SSEEvent.chunk m _ => some m
  | SSEEvent.model_done p => some p.model
  | _ => none

/-- The backend a queue item belongs to. -/
def itemModel : QItem → ModelName
  | QItem.chunk m _ => m
  | QItem.model_done p => p.model

set_option maxRecDepth 100000

attribute [local semireducible] Rat.mul Rat.add Rat.sub Rat.inv

-- ---------------------------------------------------------------------------
-- Helper lemmas: fan-in interleavings and the draining loop
-- ---------------------------------------------------------------------------

/-- Replacing one element shifts a mapped sum by the difference at that
position. -/
theorem sum_map_set {α : Type} (f : α → ℕ) :
    ∀ (ls : List α) (i : ℕ) (a : α) (hi : i < ls.length),
      ((ls.set i a).map f).sum + f ls[i] = (ls.map f).sum + f a
  | x :: tl, 0, a, _ => by simp [Nat.add_comm, Nat.add_left_comm]
  | x :: tl, n + 1, a, hi => by
    have h := sum_map_set f tl n a (by simpa using hi)
    simp only [List.set, List.map_cons, List.sum_cons, List.getElem_cons_succ]
    omega

/-- Replacing one element shifts `countP` by the difference at that
position. -/
theorem countP_set {α : Type} (p : α → Bool) :
    ∀ (ls : List α) (i : ℕ) (a : α) (hi : i < ls.length),
      ((ls.set i a).countP p + (if p ls[i] then 1 else 0)
        = ls.countP p + (if p a then 1 else 0))
  | x :: tl, 0, a, _ => by simp [List.countP_cons, Nat.add_comm, Nat.add_left_comm]
  | x :: tl, n + 1, a, hi => by
    have h := countP_set p tl n a (by simpa using hi)
    simp only [List.set, List.countP_cons, List.getElem_cons_succ]
    omega

/-- An interleaving has the summed `countP` of its sources. -/
theorem Merge.countP_eq {α : Type} (p : α → Bool) {ls : List (List α)}
    {M : List α} (h : Merge ls M) :
    M.countP p = (ls.map (fun l => l.countP p)).sum := by
  induction h with
  | nil ls h =>
    have : ∀ x ∈ ls.map (fun l => l.countP p), x = 0 := by
      intro x hx
      rcases List.mem_map.1 hx with ⟨l, hl, rfl⟩
      simp [h l hl]
    simp [List.sum_eq_zero this]
  | step ls i hi x xs out hhead hrest ih =>
    have hs := sum_map_set (fun l => l.countP p) ls i xs hi
    rw [hhead] at hs
    simp only [List.countP_cons] at hs ⊢
    omega

/-- Every element of a source list of an interleaving occurs in it. -/
theorem Merge.mem_of_mem {α : Type} {ls : List (List α)} {M : List α}
    (h : Merge ls M) :
    ∀ {i : ℕ} (hi : i < ls.length) {a : α}, a ∈ ls[i] → a ∈ M := by
  induction h with
  | nil ls h =>
    intro i hi a ha
    rw [h ls[i] (ls.getElem_mem hi)] at ha
    exact absurd ha (List.not_mem_nil a)
  | step ls j hj x xs out hhead hrest ih =>
    intro i hi a ha
    by_cases hij : i = j
    · subst hij
      rw [hhead] at ha
      rcases List.mem_cons.1 ha with h1 | h2
      · exact h1 ▸ List.mem_cons_self x out
      · refine List.mem_cons_of_mem x (ih (i := i) ?_ ?_)
        · simpa using hi
        · simpa [List.getElem_set] using h2
    · refine List.mem_cons_of_mem x (ih (i := i) ?_ ?_)
      · simpa using hi
      · rw [List.getElem_set]
        simp only [if_neg (Ne.symm hij)]
        exact ha

/-- If every source list other than the `i`-th contains no element
satisfying `p`, filtering an interleaving by `p` recovers exactly the
`i`-th source's filtrate, in source order. -/
theorem Merge.filter_eq {α : Type} (p : α → Bool) {ls : List (List α)}
    {M : List α} (h : Merge ls M) :
    ∀ {i : ℕ} (hi : i < ls.length),
      (∀ j (hj : j < ls.length), j ≠ i → ∀ x ∈ ls[j], p x = false) →
      M.filter p = ls[i].filter p := by
  induction h with
  | nil ls h =>
    intro i hi ho
    rw [h ls[i] (ls.getElem_mem hi)]
  | step ls j hj x xs out hhead hrest ih =>
    intro i hi ho
    by_cases hij : j = i
    · subst hij
      have hlen : j < (ls.set j xs).length := by simpa using hj
      have hxs : (ls.set j xs)[j] = xs := by simp [List.getElem_set]
      have hcond : ∀ j' (hj' : j' < (ls.set j xs).length), j' ≠ j →
          ∀ x' ∈ (ls.set j xs)[j'], p x' = false := by
        intro j' hj' hne x' hx'
        have hj'l : j' < ls.length := by simpa using hj'
        have hjj : ¬ j = j' := fun hh => hne hh.symm
        have he : (ls.set j xs)[j'] = ls[j'] := by
          simp [List.getElem_set, hjj]
        rw [he] at hx'
        exact ho j' hj'l hne x' hx'
      have ihr := ih (i := j) hlen hcond
      rw [hxs] at ihr
      rw [hhead, List.filter_cons, List.filter_cons, ihr]
    · have hpx : p x = false := by
        refine ho j hj hij x ?_
        rw [hhead]; exact List.mem_cons_self x xs
      have hlen : i < (ls.set j xs).length := by simpa using hi
      have hcond : ∀ j' (hj' : j' < (ls.set j xs).length), j' ≠ i →
          ∀ x' ∈ (ls.set j xs)[j'], p x' = false := by
        intro j' hj' hne x' hx'
        have hj'l : j' < ls.length := by simpa using hj'
        by_cases hj'j : j' = j
        · subst hj'j
          have he : (ls.set j' xs)[j'] = xs := by simp [List.getElem_set]
          rw [he] at hx'
          refine ho j' hj'l hne x' ?_
          rw [hhead]; exact List.mem_cons_of_mem x hx'
        · have hjj : ¬ j = j' := fun hh => hj'j hh.symm
          have he : (ls.set j xs)[j'] = ls[j'] := by
            simp [List.getElem_set, hjj]
          rw [he] at hx'
          exact ho j' hj'l hne x' hx'
      have ihr := ih (i := i) hlen hcond
      have he : (ls.set j xs)[i] = ls[i] := by
        simp [List.getElem_set, hij]
      rw [he] at ihr
      rw [List.filter_cons, hpx]
      simpa using ihr

/-- Shape of a per-task queue contribution: empty (already fully consumed)
or some chunk items followed by exactly one completion marker. -/
def TaskShape (l : List QItem) : Prop :=
  l = [] ∨ ∃ cs p, (∀ x ∈ cs, isDoneItem x = false) ∧ l = cs ++ [QItem.model_done p]

/-- While the finished-count plus the number of still-active sources equals
the requested total, the draining loop consumes an interleaving of
marker-terminated sources completely, re-emitting every item in order: the
early-exit guard of the loop never truncates such a queue. -/
theorem drainLoop_complete :
    ∀ {ls : List (List QItem)} {M : List QItem}, Merge ls M →
      ∀ (total k : ℕ), (∀ l ∈ ls, TaskShape l) →
      k + ls.countP (fun l => !l.isEmpty) = total →
      drainLoop total M k = M.map qitemEvent := by
  intro ls M h
  induction h with
  | nil ls h => intro total k _ _; rfl
  | step ls j hj x xs out hhead hrest ih =>
    intro total k hshape hcount
    have hne : (!ls[j].isEmpty) = true := by
      rw [hhead]; rfl
    have hpos : 0 < ls.countP (fun l => !l.isEmpty) := by
      rw [List.countP_pos_iff]
      exact ⟨ls[j], ls.getElem_mem hj, hne⟩
    have hk : k < total := by omega
    have hshape' : TaskShape ls[j] := hshape ls[j] (ls.getElem_mem hj)
    rcases hshape' with hnil | ⟨cs, p, hcs, heq⟩
    · rw [hnil] at hhead; exact absurd hhead (by simp)
    · rw [hhead] at heq
      cases cs with
      | nil =>
        simp only [List.nil_append, List.cons.injEq] at heq
        obtain ⟨hx, hxs⟩ := heq
        subst hx
        subst hxs
        have hcnt := countP_set (fun l : List QItem => !l.isEmpty) ls j [] hj
        rw [hhead] at hcnt
        simp at hcnt
        have hout : drainLoop total out (k + 1) = out.map qitemEvent := by
          refine ih total (k + 1) ?_ ?_
          · intro l hl
            rcases List.mem_or_eq_of_mem_set hl with hl' | hl'
            · exact hshape l hl'
            · exact Or.inl hl'
          · omega
        simp [drainLoop, Nat.not_le.2 hk, hout, qitemEvent]
      | cons c cs' =>
        simp only [List.cons_append, List.cons.injEq] at heq
        obtain ⟨hx, hxs⟩ := heq
        have hxchunk : isDoneItem x = false := by
          rw [hx]; exact hcs c (List.mem_cons_self c cs')
        have hcnt := countP_set (fun l : List QItem => !l.isEmpty) ls j xs hj
        rw [hhead] at hcnt
        have hxsne : xs.isEmpty = false := by
          rw [hxs]; simp
        simp [hxsne] at hcnt
        have hout : drainLoop total out k = out.map qitemEvent := by
          refine ih total k ?_ ?_
          · intro l hl
            rcases List.mem_or_eq_of_mem_set hl with hl' | hl'
            · exact hshape l hl'
            · refine Or.inr ⟨cs', p, ?_, hl' ▸ hxs⟩
              intro y hy
              exact hcs y (List.mem_cons_of_mem c hy)
          · omega
        cases x with
        | chunk m s => simp [drainLoop, Nat.not_le.2 hk, hout, qitemEvent]
        | model_done q => exact absurd hxchunk (by simp [isDoneItem])

/-- Every per-task queue contribution has the marker-terminated shape. -/
theorem taskShape_taskQueueItems (t : TaskRun) : TaskShape (taskQueueItems t) := by
  refine Or.inr ⟨t.chunks.map (QItem.chunk t.model), donePayload t, ?_, rfl⟩
  intro x hx
  rcases List.mem_map.1 hx with ⟨c, _, rfl⟩
  rfl

/-- Each task pushes exactly one completion marker. -/
theorem countP_done_taskQueueItems (t : TaskRun) :
    (taskQueueItems t).countP isDoneItem = 1 := by
  simp [taskQueueItems, List.countP_append, List.countP_map, List.countP_cons,
    Function.comp, isDoneItem]

/-- An interleaved queue of `runs` contains one marker per task. -/
theorem queue_countP_done {runs : List TaskRun} {queue : List QItem}
    (hq : Merge (runs.map taskQueueItems) queue) :
    queue.countP isDoneItem = runs.length := by
  rw [Merge.countP_eq isDoneItem hq, List.map_map]
  have hmap : ((fun l => List.countP isDoneItem l) ∘ taskQueueItems)
      = fun _ : TaskRun => 1 := by
    funext t
    exact countP_done_taskQueueItems t
  rw [hmap, List.map_const', List.sum_replicate, smul_eq_mul, mul_one]

/-- The draining loop of `stream_ab_test` re-emits an interleaved queue of
the launched tasks in full: with the finished-counter starting at zero and
the total equal to the task count, the early-exit guard never fires before
the queue is exhausted. -/
theorem drain_eq_map {runs : List TaskRun} {queue : List QItem}
    (hq : Merge (runs.map taskQueueItems) queue) :
    drainLoop runs.length queue 0 = queue.map qitemEvent := by
  refine drainLoop_complete hq runs.length 0 ?_ ?_
  · intro l hl
    rcases List.mem_map.1 hl with ⟨t, _, rfl⟩
    exact taskShape_taskQueueItems t
  · have : (runs.map taskQueueItems).countP (fun l => !l.isEmpty)
        = (runs.map taskQueueItems).length := by
      rw [List.countP_eq_length]
      intro l hl
      rcases List.mem_map.1 hl with ⟨t, _, rfl⟩
      simp [taskQueueItems]
    rw [this, List.length_map]
    omega

/-- The public event sequence of a comparison run over an interleaved
queue: the start event, every queue item re-emitted in queue order, and
the one final complete event. -/
theorem stream_events_eq {runs : List TaskRun} {queue : List QItem}
    (hq : Merge (runs.map taskQueueItems) queue) (test_id : String) :
    stream_ab_test_events test_id (runs.map (fun r => r.model)) queue
      = SSEEvent.start test_id (runs.map (fun r => r.model))
        :: (queue.map qitemEvent ++ [SSEEvent.complete test_id]) := by
  unfold stream_ab_test_events
  rw [List.length_map, drain_eq_map hq]

/-- The draining loop maps markers to `model_done` events and nothing else. -/
theorem isDoneEvent_qitemEvent (it : QItem) :
    isDoneEvent (qitemEvent it) = isDoneItem it := by
  cases it <;> rfl

/-- The draining loop never emits a `complete` event. -/
theorem isCompleteEvent_qitemEvent (it : QItem) :
    isCompleteEvent (qitemEvent it) = false := by
  cases it <;> rfl

/-- Re-emission preserves the backend an item belongs to. -/
theorem eventModel_qitemEvent (it : QItem) :
    eventModel (qitemEvent it) = some (itemModel it) := by
  cases it <;> rfl

/-- The completion marker a task pushes names that task's backend. -/
theorem donePayload_model (t : TaskRun) : (donePayload t).model = t.model := by
  unfold donePayload
  split <;> rfl

/-- Every item a task pushes names that task's backend. -/
theorem itemModel_taskQueueItems (t : TaskRun) :
    ∀ x ∈ taskQueueItems t, itemModel x = t.model := by
  intro x hx
  rcases List.mem_append.1 hx with hx | hx
  · rcases List.mem_map.1 hx with ⟨c, _, rfl⟩
    rfl
  · rcases List.mem_singleton.1 hx with rfl
    exact donePayload_model t

-- ---------------------------------------------------------------------------
-- Claim theorems
-- ---------------------------------------------------------------------------

/-- C1: for a comparison run over the backends of `runs` (any of which may
have failed) whose shared queue is any order-preserving interleaving of the
per-task pushes, the public stream carries exactly `runs.length` model_done
events and exactly one complete event; every task's completion marker
appears (so no failure aborts a sibling task or the draining loop), each
failed task's model_done carries error with zero latency, zero tokens and
zero cost, and the result list of the buffered variant `run_ab_test` has
exactly one recorded entry per participating backend. -/
theorem ab_comparison_partial_failure_spec
    (runs : List TaskRun) (test_id : String) (queue : List QItem)
    (hq : Merge (runs.map taskQueueItems) queue)
    (res : ModelName → Except String GatewayResult) :
    (stream_ab_test_events test_id (runs.map (fun r => r.model)) queue).countP
        isDoneEvent = runs.length
    ∧ (stream_ab_test_events test_id (runs.map (fun r => r.model)) queue).countP
        isCompleteEvent = 1
    ∧ (∀ t ∈ runs, SSEEvent.model_done (donePayload t)
        ∈ stream_ab_test_events test_id (runs.map (fun r => r.model)) queue)
    ∧ (∀ t ∈ runs, t.failed = true →
        SSEEvent.model_done
            { model := t.model, latency_ms := 0, tokens_used := 0,
              cost_cents := 0, error := true }
          ∈ stream_ab_test_events test_id (runs.map (fun r => r.model)) queue)
    ∧ (run_ab_test_results (runs.map (fun r => r.model)) res).length
        = runs.length := by
  rw [stream_events_eq hq]
  refine ⟨?_, ?_, ?_, ?_, ?_⟩
  · rw [List.countP_cons_of_neg _ _ (by simp [isDoneEvent]),
      List.countP_append, List.countP_map]
    have h1 : (isDoneEvent ∘ qitemEvent) = isDoneItem := by
      funext it
      exact isDoneEvent_qitemEvent it
    rw [h1, queue_countP_done hq]
    simp [isDoneEvent]
  · rw [List.countP_cons_of_neg _ _ (by simp [isCompleteEvent]),
      List.countP_append, List.countP_map]
    have h1 : (isCompleteEvent ∘ qitemEvent) = fun _ => false := by
      funext it
      exact isCompleteEvent_qitemEvent it
    rw [h1]
    simp [isCompleteEvent]
  · intro t ht
    rcases List.getElem_of_mem ht with ⟨i, hi, hti⟩
    have hqi : QItem.model_done (donePayload t) ∈ queue := by
      refine Merge.mem_of_mem hq (i := i) (by simpa using hi) ?_
      rw [List.getElem_map, hti]
      exact List.mem_append_right _ (List.mem_singleton.2 rfl)
    refine List.mem_cons_of_mem _ (List.mem_append_left _ ?_)
    exact List.mem_map.2 ⟨QItem.model_done (donePayload t), hqi, rfl⟩
  · intro t ht hfail
    rcases List.getElem_of_mem ht with ⟨i, hi, hti⟩
    have hdp : donePayload t
        = { model := t.model, latency_ms := 0, tokens_used := 0,
            cost_cents := 0, error := true } := by
      unfold donePayload
      rw [if_pos hfail]
    have hqi : QItem.model_done (donePayload t) ∈ queue := by
      refine Merge.mem_of_mem hq (i := i) (by simpa using hi) ?_
      rw [List.getElem_map, hti]
      exact List.mem_append_right _ (List.mem_singleton.2 rfl)
    rw [← hdp]
    refine List.mem_cons_of_mem _ (List.mem_append_left _ ?_)
    exact List.mem_map.2 ⟨QItem.model_done (donePayload t), hqi, rfl⟩
  · simp [run_ab_test_results]

/-- Concrete successful task for witnesses: two chunks, then success. -/
def wrun1 : TaskRun :=
  { model := ModelName.GPT_4O, chunks := ["Hello", " world"], failed := false,
    latency_ms := 5, tokens_used := 100 }

/-- Concrete failed task for witnesses: one chunk consumed, then a raise. -/
def wrun2 : TaskRun :=
  { model := ModelName.GPT_4O_MINI, chunks := ["Hi"], failed := true,
    latency_ms := 0, tokens_used := 0 }

/-- A concrete interleaving of the two witness tasks' pushes. -/
def wqueue : List QItem :=
  [QItem.chunk ModelName.GPT_4O "Hello",
   QItem.chunk ModelName.GPT_4O_MINI "Hi",
   QItem.model_done (donePayload wrun2),
   QItem.chunk ModelName.GPT_4O " world",
   QItem.model_done (donePayload wrun1)]

/-- `wqueue` is a valid fan-in interleaving of the two witness tasks. -/
theorem wqueue_merge : Merge [taskQueueItems wrun1, taskQueueItems wrun2] wqueue := by
  refine Merge.step _ 0 (by decide) _ _ _ rfl ?_
  refine Merge.step _ 1 (by decide) _ _ _ rfl ?_
  refine Merge.step _ 1 (by decide) _ _ _ rfl ?_
  refine Merge.step _ 0 (by decide) _ _ _ rfl ?_
  refine Merge.step _ 0 (by decide) _ _ _ rfl ?_
  refine Merge.nil _ ?_
  intro l hl
  rcases hl with _ | ⟨_, hl⟩
  · rfl
  · rcases hl with _ | ⟨_, hl⟩
    · rfl
    · exact absurd hl (List.not_mem_nil l)

/-- Witness for C1: the two-backend comparison with one failed task has
exactly two model_done events, one complete event, the failed backend's
zeroed error marker in the stream, and two recorded results. -/
theorem ab_comparison_partial_failure_spec_witness :
    (stream_ab_test_events "t1" ([wrun1, wrun2].map (fun r => r.model)) wqueue).countP
        isDoneEvent = 2
    ∧ (stream_ab_test_events "t1" ([wrun1, wrun2].map (fun r => r.model)) wqueue).countP
        isCompleteEvent = 1
    ∧ SSEEvent.model_done
        { model := wrun2.model, latency_ms := 0, tokens_used := 0,
          cost_cents := 0, error := true }
      ∈ stream_ab_test_events "t1" ([wrun1, wrun2].map (fun r => r.model)) wqueue
    ∧ (run_ab_test_results ([wrun1, wrun2].map (fun r => r.model))
        (fun _ => Except.error "RuntimeError")).length = 2 := by
  have h := ab_comparison_partial_failure_spec [wrun1, wrun2] "t1" wqueue
    wqueue_merge (fun _ => Except.error "RuntimeError")
  exact ⟨h.1, h.2.1, h.2.2.2.1 wrun2 (by simp) rfl, h.2.2.2.2⟩

/-- The re-emitted event of an item belongs to backend `m` exactly when the
item does. -/
theorem eventModel_pred (m : ModelName) (it : QItem) :
    (decide (eventModel (qitemEvent it) = some m)) = decide (itemModel it = m) := by
  cases it <;> simp [qitemEvent, eventModel, itemModel]

/-- Distinct list positions of a duplicate-free mapped list carry distinct
values. -/
theorem nodup_map_getElem_ne {α β : Type} (f : α → β) (l : List α)
    (hnd : (l.map f).Nodup) {i j : ℕ} (hi : i < l.length) (hj : j < l.length)
    (hne : j ≠ i) : f l[j] ≠ f l[i] := by
  intro heq
  have hmi : i < (l.map f).length := by simpa using hi
  have hmj : j < (l.map f).length := by simpa using hj
  have hgi : (l.map f)[i] = f l[i] := List.getElem_map _
  have hgj : (l.map f)[j] = f l[j] := List.getElem_map _
  have hinj := List.nodup_iff_injective_get.1 hnd
  have : (⟨j, by simpa using hj⟩ : Fin (l.map f).length)
      = ⟨i, by simpa using hi⟩ := by
    apply hinj
    rw [List.get_eq_getElem, List.get_eq_getElem]
    simpa [hgi, hgj] using heq
  exact hne (by simpa using congrArg Fin.val this)

/-- C2: in any comparison run (over backends that are pairwise distinct,
with the shared queue an arbitrary order-preserving interleaving of the
tasks' pushes), the events attributed to one backend are exactly its chunks
in production order followed by its single model_done — so every chunk of a
backend precedes that backend's completion event — and the complete event
occurs exactly once, as the final event of the stream. -/
theorem ab_stream_ordering_spec
    (runs : List TaskRun) (test_id : String) (queue : List QItem)
    (hq : Merge (runs.map taskQueueItems) queue)
    (hnd : (runs.map (fun r => r.model)).Nodup) :
    (∀ t ∈ runs,
      (stream_ab_test_events test_id (runs.map (fun r => r.model)) queue).filter
          (fun e => decide (eventModel e = some t.model))
        = t.chunks.map (SSEEvent.chunk t.model)
          ++ [SSEEvent.model_done (donePayload t)])
    ∧ (stream_ab_test_events test_id (runs.map (fun r => r.model)) queue).countP
        isCompleteEvent = 1
    ∧ (stream_ab_test_events test_id (runs.map (fun r => r.model)) queue).getLast?
        = some (SSEEvent.complete test_id) := by
  rw [stream_events_eq hq]
  refine ⟨?_, ?_, ?_⟩
  · intro t ht
    rcases List.getElem_of_mem ht with ⟨i, hi, hti⟩
    have hstart : (decide (eventModel
        (SSEEvent.start test_id (runs.map (fun r => r.model))) = some t.model))
        = false := by
      simp [eventModel]
    rw [List.filter_cons, hstart]
    simp only [Bool.false_eq_true, if_false]
    rw [List.filter_append]
    have h2 : List.filter (fun e => decide (eventModel e = some t.model))
        [SSEEvent.complete test_id] = [] := by
      simp [eventModel]
    rw [h2, List.append_nil]
    rw [List.filter_map]
    have hcomp2 : ((fun e => decide (eventModel e = some t.model)) ∘ qitemEvent)
        = fun it => decide (itemModel it = t.model) := by
      funext it
      exact eventModel_pred t.model it
    rw [hcomp2]
    have hother : ∀ j (hj : j < (runs.map taskQueueItems).length), j ≠ i →
        ∀ x ∈ (runs.map taskQueueItems)[j],
          (decide (itemModel x = t.model)) = false := by
      intro j hj hne x hx
      have hjr : j < runs.length := by simpa using hj
      have hx' : x ∈ taskQueueItems runs[j] := by
        rw [List.getElem_map] at hx
        exact hx
      have hxm : itemModel x = runs[j].model :=
        itemModel_taskQueueItems runs[j] x hx'
      have hneq : runs[j].model ≠ t.model := by
        have := nodup_map_getElem_ne (fun r => r.model) runs hnd
          (i := i) (j := j) hi hjr hne
        rw [hti] at this
        exact this
      simp [hxm, hneq]
    have hfilter := Merge.filter_eq (fun it => decide (itemModel it = t.model))
      hq (i := i) (by simpa using hi) hother
    rw [hfilter]
    have hmi : i < (runs.map taskQueueItems).length := by simpa using hi
    have hgi : (runs.map taskQueueItems)[i] = taskQueueItems t := by
      rw [List.getElem_map, hti]
    rw [hgi]
    have hself : (taskQueueItems t).filter
        (fun it => decide (itemModel it = t.model)) = taskQueueItems t := by
      rw [List.filter_eq_self]
      intro x hx
      simp [itemModel_taskQueueItems t x hx]
    rw [hself]
    simp only [taskQueueItems, List.map_append, List.map_map, List.map_cons,
      List.map_nil]
    congr 1
  · rw [List.countP_cons_of_neg _ _ (by simp [isCompleteEvent]),
      List.countP_append, List.countP_map]
    have h1 : (isCompleteEvent ∘ qitemEvent) = fun _ => false := by
      funext it
      exact isCompleteEvent_qitemEvent it
    rw [h1]
    simp [isCompleteEvent]
  · rw [← List.cons_append]
    exact List.getLast?_concat _

/-- Witness for C2: in the concrete interleaved run, the successful
backend's events are its two chunks in production order followed by its
model_done, and the stream ends with the single complete event. -/
theorem ab_stream_ordering_spec_witness :
    (stream_ab_test_events "t2" ([wrun1, wrun2].map (fun r => r.model)) wqueue).filter
        (fun e => decide (eventModel e = some wrun1.model))
      = wrun1.chunks.map (SSEEvent.chunk wrun1.model)
        ++ [SSEEvent.model_done (donePayload wrun1)]
    ∧ (stream_ab_test_events "t2"
        ([wrun1, wrun2].map (fun r => r.model)) wqueue).getLast?
        = some (SSEEvent.complete "t2") := by
  have h := ab_stream_ordering_spec [wrun1, wrun2] "t2" wqueue wqueue_merge
    (by decide)
  exact ⟨h.1 wrun1 (by simp), h.2.2⟩

/-- C3: with a credential configured and the forced-demo flag not yet set,
a `check_spend_cap` observation of today's cumulative cost at or above the
cap returns false and sets the forced-demo flag dated today; a repeated
over-cap check is idempotent; every same-day `get_mode` evaluation returns
demo without changing state (so the mode stays degraded for the rest of
the day), even after later checks observe spend back under the cap (which
return true but leave the flag set); and the first `get_mode` evaluation
on any different calendar day clears the flag and returns live. -/
theorem budget_degraded_latch_spec
    (key : String) (s : ConfigState) (today : ℕ) (spent : ℚ)
    (hkey : s.apiKey = some key) (hflag : s.forcedDemo = false)
    (hcap : DAILY_SPEND_CAP_CENTS ≤ spent) :
    check_spend_cap s today spent
      = (false, { s with forcedDemo := true, forcedDemoDate := some today })
    ∧ (∀ spent2, DAILY_SPEND_CAP_CENTS ≤ spent2 →
        check_spend_cap { s with forcedDemo := true, forcedDemoDate := some today }
          today spent2
        = (false, { s with forcedDemo := true, forcedDemoDate := some today }))
    ∧ get_mode { s with forcedDemo := true, forcedDemoDate := some today } today
        = ("demo", { s with forcedDemo := true, forcedDemoDate := some today })
    ∧ (∀ spent2, spent2 < DAILY_SPEND_CAP_CENTS →
        check_spend_cap { s with forcedDemo := true, forcedDemoDate := some today }
          today spent2
        = (true, { s with forcedDemo := true, forcedDemoDate := some today }))
    ∧ (∀ d, d ≠ today →
        get_mode { s with forcedDemo := true, forcedDemoDate := some today } d
        = ("live", { s with forcedDemo := false, forcedDemoDate := none })) := by
  refine ⟨?_, ?_, ?_, ?_, ?_⟩
  · simp [check_spend_cap, hcap, hflag]
  · intro spent2 h2
    simp [check_spend_cap, h2]
  · simp [get_mode, hkey]
  · intro spent2 h2
    simp [check_spend_cap, not_le.2 h2]
  · intro d hd
    have hne : ¬ today = d := fun h => hd h.symm
    simp [get_mode, hkey, hne]

/-- Witness for C3: a concrete over-cap observation on day 0 latches demo
mode for day 0 and releases it on day 1. -/
theorem budget_degraded_latch_spec_witness :
    check_spend_cap ⟨some "k", false, none⟩ 0 200
      = (false, ⟨some "k", true, some 0⟩)
    ∧ get_mode ⟨some "k", true, some 0⟩ 0 = ("demo", ⟨some "k", true, some 0⟩)
    ∧ check_spend_cap ⟨some "k", true, some 0⟩ 0 199
      = (true, ⟨some "k", true, some 0⟩)
    ∧ get_mode ⟨some "k", true, some 0⟩ 1 = ("live", ⟨some "k", false, none⟩) := by
  have h := budget_degraded_latch_spec "k" ⟨some "k", false, none⟩ 0 200 rfl rfl
    (by decide)
  exact ⟨h.1, h.2.2.1, h.2.2.2.1 199 (by decide), h.2.2.2.2 1 (by decide)⟩

/-- The fallback table as the total function it denotes: `FALLBACK_ORDER`
has an entry for every backend, so the dispatcher's `.get` always finds
exactly one alternate. -/
def fallback_entry : ModelName → ModelName
  | ModelName.CLAUDE_3_5_SONNET => ModelName.GPT_4O
  | ModelName.GPT_4O => ModelName.CLAUDE_3_5_SONNET
  | ModelName.GEMINI_1_5_PRO => ModelName.GPT_4O
  | ModelName.DEEPSEEK_V3 => ModelName.GPT_4O_MINI
  | ModelName.GPT_4O_MINI => ModelName.CLAUDE_3_HAIKU
  | ModelName.CLAUDE_3_HAIKU => ModelName.GPT_4O_MINI

/-- The association-list lookup of the fallback table succeeds for every
backend and returns the table entry. -/
theorem fallback_get_total (m : ModelName) :
    fallback_get m = some (fallback_entry m) := by
  cases m <;> rfl

/-- C4: the dispatcher makes at most two backend invocations per request;
when the primary invocation fails it makes exactly one fallback attempt,
against the fallback-table entry for that primary: on fallback success the
result is attributed to the fallback backend, and on fallback failure the
request surfaces as total failure with no further invocation. -/
theorem dispatcher_fallback_spec (call : ModelName → Option GatewayResult)
    (model : ModelName) :
    (non_stream_dispatch call model).2.length ≤ 2
    ∧ (call model = none →
        (non_stream_dispatch call model).2 = [model, fallback_entry model]
        ∧ (∀ r, call (fallback_entry model) = some r →
            (non_stream_dispatch call model).1 = some (fallback_entry model, r))
        ∧ (call (fallback_entry model) = none →
            (non_stream_dispatch call model).1 = none)) := by
  cases hc : call model with
  | some r => simp [non_stream_dispatch, hc]
  | none =>
    refine ⟨?_, fun _ => ⟨?_, ?_, ?_⟩⟩ <;>
      cases hf : call (fallback_entry model) <;>
        simp [non_stream_dispatch, hc, fallback_get_total, hf]

/-- Concrete result used by dispatcher witnesses. -/
def wresult : GatewayResult := { response_text := "ok", latency_ms := 1, tokens_used := 10 }

/-- Concrete collaborator for the C4 witness: the primary fails, its
fallback answers. -/
def wcall : ModelName → Option GatewayResult :=
  fun m => if m = ModelName.GPT_4O then some wresult else none

/-- Witness for C4: with a failing primary whose fallback succeeds, the
invocation trace is exactly primary-then-fallback and the result is
attributed to the fallback backend. -/
theorem dispatcher_fallback_spec_witness :
    (non_stream_dispatch wcall ModelName.CLAUDE_3_5_SONNET).2
      = [ModelName.CLAUDE_3_5_SONNET, ModelName.GPT_4O]
    ∧ (non_stream_dispatch wcall ModelName.CLAUDE_3_5_SONNET).1
      = some (ModelName.GPT_4O, wresult) := by
  have h := dispatcher_fallback_spec wcall ModelName.CLAUDE_3_5_SONNET
  exact ⟨(h.2 rfl).1, (h.2 rfl).2.1 wresult rfl⟩

/-- The degraded-mode (demo) backend collaborator of the dispatcher: each
invocation runs `generate_completion` of the mock gateway on that
invocation's random draws. -/
def demo_call (draws : ModelName → GatewayDraw) : ModelName → Option GatewayResult :=
  fun m => generate_completion (draws m)

/-- The all-failing draw assignment: every mock invocation hits the
simulated 5 percent failure (`_should_fail` returning true). -/
def failDraws : ModelName → GatewayDraw :=
  fun _ => { fails := true, latency := 0, text := "" }

/-- Counterexample to C5 as stated: a degraded-mode request is not always
answered — when the simulated failure draw fires for both the primary mock
invocation and the single fallback mock invocation, the dispatcher
surfaces a total failure (the uncaught provider error) instead of a
completion result. -/
theorem degraded_mode_error_counterexample :
    (non_stream_dispatch (demo_call failDraws) ModelName.CLAUDE_3_HAIKU).1 = none
    ∧ (non_stream_dispatch (demo_call failDraws) ModelName.CLAUDE_3_HAIKU).2
      = [ModelName.CLAUDE_3_HAIKU, ModelName.GPT_4O_MINI] := by
  exact ⟨rfl, rfl⟩

/-- C5 (amended): a degraded-mode request returns a complete, well-formed
completion result — attributed to the routed backend or to its fallback,
with the mock gateway's token floor of ten — whenever the simulated
failure draw does not fire for both of those two invocations. -/
theorem degraded_mode_spec_amended (draws : ModelName → GatewayDraw)
    (model : ModelName)
    (h : (draws model).fails = false ∨ (draws (fallback_entry model)).fails = false) :
    ∃ b r, (non_stream_dispatch (demo_call draws) model).1 = some (b, r)
      ∧ (b = model ∨ b = fallback_entry model)
      ∧ 10 ≤ r.tokens_used := by
  cases hp : (draws model).fails with
  | false =>
    refine ⟨model,
      { response_text := (draws model).text, latency_ms := (draws model).latency,
        tokens_used := estimate_tokens (draws model).text }, ?_, Or.inl rfl, ?_⟩
    · simp [non_stream_dispatch, demo_call, generate_completion, hp]
    · exact Nat.le_max_left _ _
  | true =>
    rcases h with h | h
    · rw [hp] at h
      exact absurd h (by simp)
    · refine ⟨fallback_entry model,
        { response_text := (draws (fallback_entry model)).text,
          latency_ms := (draws (fallback_entry model)).latency,
          tokens_used := estimate_tokens (draws (fallback_entry model)).text },
        ?_, Or.inr rfl, ?_⟩
      · simp [non_stream_dispatch, demo_call, generate_completion, hp, h,
          fallback_get_total]
      · exact Nat.le_max_left _ _

/-- Draws for the C5 witness: the primary invocation fails, its fallback
succeeds. -/
def wdraws : ModelName → GatewayDraw :=
  fun m => if m = ModelName.GPT_4O_MINI
    then { fails := false, latency := 3, text := "mock answer text" }
    else { fails := true, latency := 0, text := "" }

/-- Witness for the amended C5: with the primary mock invocation failing
and the fallback draw succeeding, the degraded-mode request still returns
a complete well-formed result. -/
theorem degraded_mode_spec_amended_witness :
    ((wdraws ModelName.CLAUDE_3_HAIKU).fails = false
      ∨ (wdraws (fallback_entry ModelName.CLAUDE_3_HAIKU)).fails = false)
    ∧ ∃ b r,
        (non_stream_dispatch (demo_call wdraws) ModelName.CLAUDE_3_HAIKU).1
          = some (b, r)
        ∧ (b = ModelName.CLAUDE_3_HAIKU
            ∨ b = fallback_entry ModelName.CLAUDE_3_HAIKU)
        ∧ 10 ≤ r.tokens_used :=
  ⟨Or.inr rfl,
    degraded_mode_spec_amended wdraws ModelName.CLAUDE_3_HAIKU (Or.inr rfl)⟩

/-- C8: `select` is total — for every task type and complexity it returns
the fixed routing-table cell for the band derived from the documented
thresholds (complexity at most 3 is low, above 3 up to 6 is medium, above
6 is high; in particular 3.0 is low, 3.1 medium, 6.0 medium, 6.1 high),
and the returned backend is one of that task type's three table cells. -/
theorem select_total_spec (t : TaskType) (c : ℚ) :
    (c ≤ 3 → complexity_to_band c = ComplexityBand.LOW)
    ∧ (3 < c → c ≤ 6 → complexity_to_band c = ComplexityBand.MEDIUM)
    ∧ (6 < c → complexity_to_band c = ComplexityBand.HIGH)
    ∧ select_model t c = ROUTING_MATRIX t (complexity_to_band c)
    ∧ select_model t c ∈ matrixRow t
    ∧ complexity_to_band 3 = ComplexityBand.LOW
    ∧ complexity_to_band (31 / 10) = ComplexityBand.MEDIUM
    ∧ complexity_to_band 6 = ComplexityBand.MEDIUM
    ∧ complexity_to_band (61 / 10) = ComplexityBand.HIGH := by
  refine ⟨?_, ?_, ?_, rfl, ?_, by decide, by decide, by decide, by decide⟩
  · intro h
    simp [complexity_to_band, h]
  · intro h1 h2
    simp [complexity_to_band, not_le.2 h1, h2]
  · intro h
    have h3 : ¬ c ≤ 3 := not_le.2 (lt_trans (by norm_num) h)
    have h6 : ¬ c ≤ 6 := not_le.2 h
    simp [complexity_to_band, h3, h6]
  · cases hb : complexity_to_band c <;>
      simp [select_model, matrixRow, hb]

/-- Witness for C8: the four documented threshold samples, evaluated, and a
concrete selection hitting the table cell. -/
theorem select_total_spec_witness :
    complexity_to_band 3 = ComplexityBand.LOW
    ∧ complexity_to_band (31 / 10) = ComplexityBand.MEDIUM
    ∧ complexity_to_band 6 = ComplexityBand.MEDIUM
    ∧ complexity_to_band (61 / 10) = ComplexityBand.HIGH
    ∧ select_model TaskType.CODE (65 / 10)
        = ROUTING_MATRIX TaskType.CODE (complexity_to_band (65 / 10)) := by
  have h1 := (select_total_spec TaskType.CODE 3).1 (by decide)
  have h2 := ((select_total_spec TaskType.CODE (31 / 10)).2.1 (by decide) (by decide))
  have h3 := ((select_total_spec TaskType.CODE 6).2.1 (by decide) (by decide))
  have h4 := ((select_total_spec TaskType.CODE (61 / 10)).2.2.1 (by decide))
  have h5 := (select_total_spec TaskType.CODE (65 / 10)).2.2.2.1
  exact ⟨h1, h2, h3, h4, h5⟩

/-- Every per-task default comparison list has exactly three models. -/
theorem DEFAULT_AB_MODELS_length (t : TaskType) :
    (DEFAULT_AB_MODELS t).length = 3 := by
  cases t <;> rfl

/-- C9: the comparison model-selection helper always returns two or three
models — a requested list with at least two entries is truncated to its
first three, and any other request (absent, empty, or a single model)
yields the fixed three-model default for the task type. -/
theorem get_ab_models_spec (t : TaskType) (req : Option (List ModelName)) :
    (2 ≤ (get_ab_models t req).length ∧ (get_ab_models t req).length ≤ 3)
    ∧ (∀ l, req = some l → 2 ≤ l.length → get_ab_models t req = l.take 3)
    ∧ ((req = none ∨ ∃ l, req = some l ∧ l.length < 2) →
        get_ab_models t req = DEFAULT_AB_MODELS t) := by
  refine ⟨?_, ?_, ?_⟩
  · cases req with
    | none => simp [get_ab_models, DEFAULT_AB_MODELS_length t]
    | some l =>
      by_cases h : l ≠ [] ∧ 2 ≤ l.length
      · simp only [get_ab_models, if_pos h, List.length_take]
        omega
      · simp only [get_ab_models, if_neg h]
        rw [DEFAULT_AB_MODELS_length t]
        omega
  · intro l hl h2
    subst hl
    have hne : l ≠ [] := by
      intro h
      rw [h] at h2
      exact absurd h2 (by simp)
    simp [get_ab_models, hne, h2]
  · intro h
    rcases h with h | ⟨l, hl, hlen⟩
    · subst h
      rfl
    · subst hl
      have : ¬ (l ≠ [] ∧ 2 ≤ l.length) := by
        intro ⟨_, h2⟩
        omega
      simp [get_ab_models, this]

/-- Witness for C9: a four-model request is truncated to its first three; an
absent and a single-model request both produce the per-task default. -/
theorem get_ab_models_spec_witness :
    get_ab_models TaskType.CODE
        (some [ModelName.GPT_4O, ModelName.CLAUDE_3_HAIKU,
               ModelName.DEEPSEEK_V3, ModelName.GEMINI_1_5_PRO])
      = [ModelName.GPT_4O, ModelName.CLAUDE_3_HAIKU, ModelName.DEEPSEEK_V3]
    ∧ get_ab_models TaskType.MATH none = DEFAULT_AB_MODELS TaskType.MATH
    ∧ get_ab_models TaskType.QA (some [ModelName.GPT_4O])
      = DEFAULT_AB_MODELS TaskType.QA := by
  have h1 := (get_ab_models_spec TaskType.CODE
    (some [ModelName.GPT_4O, ModelName.CLAUDE_3_HAIKU,
           ModelName.DEEPSEEK_V3, ModelName.GEMINI_1_5_PRO])).2.1
    [ModelName.GPT_4O, ModelName.CLAUDE_3_HAIKU,
     ModelName.DEEPSEEK_V3, ModelName.GEMINI_1_5_PRO] rfl (by decide)
  have h2 := (get_ab_models_spec TaskType.MATH none).2.2 (Or.inl rfl)
  have h3 := (get_ab_models_spec TaskType.QA (some [ModelName.GPT_4O])).2.2
    (Or.inr ⟨[ModelName.GPT_4O], rfl, by decide⟩)
  exact ⟨h1, h2, h3⟩

-- ---------------------------------------------------------------------------
-- Helper lemmas: rounding and the score sort
-- ---------------------------------------------------------------------------

/-- `pyround` is monotone. -/
theorem pyround_mono {x y : ℚ} (n : ℕ) (h : x ≤ y) : pyround x n ≤ pyround y n := by
  have h10 : (0:ℚ) < 10 ^ n := by positivity
  have hr : round (x * 10 ^ n) ≤ round (y * 10 ^ n) := by
    rw [round_eq, round_eq]
    apply Int.floor_mono
    nlinarith [mul_le_mul_of_nonneg_right h (le_of_lt h10)]
  unfold pyround
  exact (div_le_div_iff_of_pos_right h10).2 (by exact_mod_cast hr)

/-- `pyround` fixes integers. -/
theorem pyround_intCast (k : ℤ) (n : ℕ) : pyround (k : ℚ) n = k := by
  unfold pyround
  rw [show ((k:ℚ) * 10 ^ n) = (((k * 10 ^ n : ℤ)) : ℚ) by push_cast; ring,
    round_intCast]
  push_cast
  rw [mul_div_assoc, div_self (by positivity), mul_one]

/-- `pyround` of zero. -/
theorem pyround_zero (n : ℕ) : pyround 0 n = 0 := by
  simpa using pyround_intCast 0 n

/-- `pyround` of one. -/
theorem pyround_one (n : ℕ) : pyround 1 n = 1 := by
  simpa using pyround_intCast 1 n

/-- `pyround` of ten. -/
theorem pyround_ten (n : ℕ) : pyround 10 n = 10 := by
  simpa using pyround_intCast 10 n

/-- `pyround` preserves nonnegativity. -/
theorem pyround_nonneg {x : ℚ} (n : ℕ) (h : 0 ≤ x) : 0 ≤ pyround x n := by
  have := pyround_mono n h
  rwa [pyround_zero] at this

/-- `pyround` preserves an upper bound of one. -/
theorem pyround_le_one {x : ℚ} (n : ℕ) (h : x ≤ 1) : pyround x n ≤ 1 := by
  have := pyround_mono n h
  rwa [pyround_one] at this

/-- `pyround` preserves an upper bound of ten. -/
theorem pyround_le_ten {x : ℚ} (n : ℕ) (h : x ≤ 10) : pyround x n ≤ 10 := by
  have := pyround_mono n h
  rwa [pyround_ten] at this

/-- Membership through one stable descending insertion. -/
theorem mem_insertDesc {x y : TaskType × ℚ} :
    ∀ {l : List (TaskType × ℚ)}, x ∈ insertDesc y l ↔ x = y ∨ x ∈ l := by
  intro l
  induction l with
  | nil => simp [insertDesc]
  | cons z zs ih =>
    unfold insertDesc
    by_cases h : z.2 < y.2
    · simp [h]
    · simp only [if_neg h, List.mem_cons, ih]
      tauto

/-- One insertion grows the length by one. -/
theorem length_insertDesc (y : TaskType × ℚ) :
    ∀ l : List (TaskType × ℚ), (insertDesc y l).length = l.length + 1 := by
  intro l
  induction l with
  | nil => rfl
  | cons z zs ih =>
    unfold insertDesc
    by_cases h : z.2 < y.2 <;> simp [h, ih]

/-- Membership through the stable descending sort. -/
theorem mem_sortScoresDesc {x : TaskType × ℚ} {l : List (TaskType × ℚ)} :
    x ∈ sortScoresDesc l ↔ x ∈ l := by
  have aux : ∀ (l acc : List (TaskType × ℚ)),
      (x ∈ l.foldl (fun a b => insertDesc b a) acc ↔ x ∈ acc ∨ x ∈ l) := by
    intro l
    induction l with
    | nil => intro acc; simp
    | cons h t ih =>
      intro acc
      rw [List.foldl_cons, ih (insertDesc h acc)]
      rw [mem_insertDesc]
      simp only [List.mem_cons]
      tauto
  have := aux l []
  simp only [List.not_mem_nil, false_or] at this
  exact this

/-- The stable descending sort preserves length. -/
theorem length_sortScoresDesc (l : List (TaskType × ℚ)) :
    (sortScoresDesc l).length = l.length := by
  have aux : ∀ (l acc : List (TaskType × ℚ)),
      (l.foldl (fun a b => insertDesc b a) acc).length = acc.length + l.length := by
    intro l
    induction l with
    | nil => intro acc; simp
    | cons h t ih =>
      intro acc
      rw [List.foldl_cons, ih (insertDesc h acc), length_insertDesc]
      simp only [List.length_cons]
      omega
  have := aux l []
  simpa using this

/-- Score dominance relation used to state sortedness of the score sort. -/
def geScore (a b : TaskType × ℚ) : Prop := b.2 ≤ a.2

/-- Insertion preserves descending sortedness. -/
theorem pairwise_insertDesc (y : TaskType × ℚ) :
    ∀ {l : List (TaskType × ℚ)}, l.Pairwise geScore →
      (insertDesc y l).Pairwise geScore := by
  intro l
  induction l with
  | nil => intro _; simp [insertDesc, geScore]
  | cons z zs ih =>
    intro h
    rcases List.pairwise_cons.1 h with ⟨hz, hzs⟩
    unfold insertDesc
    by_cases hc : z.2 < y.2
    · rw [if_pos hc]
      refine List.pairwise_cons.2 ⟨?_, h⟩
      intro w hw
      rcases List.mem_cons.1 hw with rfl | hw
      · exact le_of_lt hc
      · exact le_trans (hz w hw) (le_of_lt hc)
    · rw [if_neg hc]
      refine List.pairwise_cons.2 ⟨?_, ih hzs⟩
      intro w hw
      rcases mem_insertDesc.1 hw with rfl | hw
      · exact not_lt.1 hc
      · exact hz w hw

/-- The stable descending sort is sorted by descending score. -/
theorem pairwise_sortScoresDesc (l : List (TaskType × ℚ)) :
    (sortScoresDesc l).Pairwise geScore := by
  have aux : ∀ (l acc : List (TaskType × ℚ)), acc.Pairwise geScore →
      (l.foldl (fun a b => insertDesc b a) acc).Pairwise geScore := by
    intro l
    induction l with
    | nil => intro acc h; simpa using h
    | cons h t ih =>
      intro acc hacc
      rw [List.foldl_cons]
      exact ih _ (pairwise_insertDesc h hacc)
  exact aux l [] (by simp)

/-- The head of the sorted score list dominates every original score. -/
theorem sortScoresDesc_head_max {l : List (TaskType × ℚ)} {x : TaskType × ℚ}
    (hx : x ∈ l) :
    x.2 ≤ ((sortScoresDesc l).getD 0 (TaskType.QA, 0)).2 := by
  have hx' : x ∈ sortScoresDesc l := mem_sortScoresDesc.2 hx
  have hp := pairwise_sortScoresDesc l
  cases hsl : sortScoresDesc l with
  | nil =>
    rw [hsl] at hx'
    exact absurd hx' (List.not_mem_nil x)
  | cons h t =>
    rw [hsl] at hx' hp
    rcases List.mem_cons.1 hx' with rfl | hx'
    · simp [List.getD]
    · simpa [List.getD] using (List.pairwise_cons.1 hp).1 x hx'

/-- The head of the sorted score list is one of the original scores. -/
theorem sortScoresDesc_head_mem {l : List (TaskType × ℚ)} (hl : l ≠ []) :
    (sortScoresDesc l).getD 0 (TaskType.QA, 0) ∈ l := by
  cases hsl : sortScoresDesc l with
  | nil =>
    have := length_sortScoresDesc l
    rw [hsl] at this
    exact absurd (List.length_eq_zero.1 this.symm) hl
  | cons h t =>
    refine mem_sortScoresDesc.1 ?_
    rw [hsl]
    simp [List.getD]

/-- The second entry of the sorted score list is an original score when the
list has at least two entries. -/
theorem sortScoresDesc_second_mem {l : List (TaskType × ℚ)} (hl : 2 ≤ l.length) :
    (sortScoresDesc l).getD 1 (TaskType.QA, 0) ∈ l := by
  have hlen := length_sortScoresDesc l
  refine mem_sortScoresDesc.1 ?_
  have h1 : 1 < (sortScoresDesc l).length := by omega
  rw [List.getD_eq_getElem _ _ h1]
  exact (sortScoresDesc l).getElem_mem h1

/-- Every category score is nonnegative. -/
theorem category_score_nonneg (rx : TaskType → ℕ) (pl : List Char) (t : TaskType) :
    0 ≤ category_score rx pl t := by
  unfold category_score
  have hw : 0 ≤ CATEGORY_WEIGHT t := by
    cases t <;> norm_num [CATEGORY_WEIGHT]
  positivity

/-- Every entry of the score list carries a nonnegative score. -/
theorem scoresList_nonneg (rx : TaskType → ℕ) (pl : List Char) :
    ∀ x ∈ scoresList rx pl, 0 ≤ x.2 := by
  intro x hx
  rcases List.mem_map.1 hx with ⟨t, _, rfl⟩
  exact category_score_nonneg rx pl t

/-- The score list always has exactly seven entries. -/
theorem scoresList_length (rx : TaskType → ℕ) (pl : List Char) :
    (scoresList rx pl).length = 7 := by
  simp [scoresList, TASK_ORDER]

/-- The confidence component of `detect_task_type` always lies in [0, 1]:
the zero-score default is 0.3, and the positive-score branch rounds a value
clamped below one and above zero. -/
theorem detect_confidence_bounds (rx : TaskType → ℕ) (prompt : String) :
    0 ≤ (detect_task_type rx prompt).2 ∧ (detect_task_type rx prompt).2 ≤ 1 := by
  simp only [detect_task_type]
  set sl := scoresList rx (lowerChars prompt) with hsl
  set ss := sortScoresDesc sl with hss
  set top := ss.getD 0 (TaskType.QA, 0) with htop
  set second := (ss.getD 1 (TaskType.QA, 0)).2 with hsecond
  by_cases h0 : top.2 = 0
  · simp only [if_pos h0]
    norm_num
  · simp only [if_neg h0]
    have hlen : sl.length = 7 := scoresList_length rx _
    have hlne : sl ≠ [] := by
      intro h
      rw [h] at hlen
      exact absurd hlen (by norm_num)
    have htm : top ∈ sl := sortScoresDesc_head_mem hlne
    have htnn : 0 ≤ top.2 := scoresList_nonneg rx _ top htm
    have hsm : ss.getD 1 (TaskType.QA, 0) ∈ sl :=
      sortScoresDesc_second_mem (by omega)
    have hsnn : 0 ≤ second := scoresList_nonneg rx _ _ hsm
    have hq : 0 ≤ top.2 / (top.2 + second + 1 / 1000) :=
      div_nonneg htnn (by linarith)
    exact ⟨pyround_nonneg 3 (le_min (by norm_num) hq),
      pyround_le_one 3 (min_le_left _ _)⟩

/-- The per-task base difficulty table stays within [0, 7]. -/
theorem task_base_bounds (t : TaskType) :
    0 ≤ TASK_BASE_COMPLEXITY t ∧ TASK_BASE_COMPLEXITY t ≤ 7 := by
  cases t <;> exact ⟨by norm_num [TASK_BASE_COMPLEXITY], by norm_num [TASK_BASE_COMPLEXITY]⟩

/-- `compute_complexity` bounds: for any prompt and any confidence in
[0, 1], the final complexity lies in [1, 10] and each of the six exposed
signals lies in [0, 10]. -/
theorem compute_complexity_bounds (p : String) (t : TaskType) (c : ℚ)
    (hc0 : 0 ≤ c) (hc1 : c ≤ 1) :
    (1 ≤ (compute_complexity p t c).1 ∧ (compute_complexity p t c).1 ≤ 10)
    ∧ (0 ≤ (compute_complexity p t c).2.token_length
        ∧ (compute_complexity p t c).2.token_length ≤ 10)
    ∧ (0 ≤ (compute_complexity p t c).2.task_type_match
        ∧ (compute_complexity p t c).2.task_type_match ≤ 10)
    ∧ (0 ≤ (compute_complexity p t c).2.reasoning_depth
        ∧ (compute_complexity p t c).2.reasoning_depth ≤ 10)
    ∧ (0 ≤ (compute_complexity p t c).2.domain_specificity
        ∧ (compute_complexity p t c).2.domain_specificity ≤ 10)
    ∧ (0 ≤ (compute_complexity p t c).2.context_needs
        ∧ (compute_complexity p t c).2.context_needs ≤ 10)
    ∧ (0 ≤ (compute_complexity p t c).2.vocabulary_complexity
        ∧ (compute_complexity p t c).2.vocabulary_complexity ≤ 10) := by
  have hbase := task_base_bounds t
  simp only [compute_complexity]
  refine ⟨⟨le_max_left _ _, max_le (by norm_num) (min_le_left _ _)⟩,
    ⟨pyround_nonneg 2 (le_min (by norm_num) (by positivity)),
     pyround_le_ten 2 (min_le_left _ _)⟩,
    ⟨pyround_nonneg 2 (mul_nonneg hbase.1 hc0),
     pyround_le_ten 2 (by nlinarith [hbase.1, hbase.2])⟩,
    ⟨pyround_nonneg 2 (le_min (by norm_num) (by positivity)),
     pyround_le_ten 2 (min_le_left _ _)⟩,
    ⟨pyround_nonneg 2 (le_min (by norm_num) (by positivity)),
     pyround_le_ten 2 (min_le_left _ _)⟩,
    ⟨pyround_nonneg 2 (le_min (by norm_num) ?_),
     pyround_le_ten 2 (min_le_left _ _)⟩,
    ⟨pyround_nonneg 2 (le_max_left _ _),
     pyround_le_ten 2 (max_le (by norm_num) (min_le_left _ _))⟩⟩
  have h1 : (0:ℚ) ≤ ((CONTEXT_REFS.countP
      (fun w => decide (w.data <:+: lowerChars p)) : ℕ) : ℚ) * 2 := by
    positivity
  have h2 : (0:ℚ) ≤ (if 3 < p.data.countP (fun ch => ch = '\n') then (2:ℚ) else 0) := by
    split <;> norm_num
  have h3 : (0:ℚ) ≤ (if 200 < (pywords p).length then (3:ℚ) else 0) := by
    split <;> norm_num
  linarith

/-- C6: `classify` is total over all prompts and regex-engine outcomes —
its complexity lies in [1, 10] and its confidence in [0, 1] — and it
exposes the six intermediate signals, each within the documented [0, 10]
signal range, alongside the result.  Determinism over identical input
holds by construction: the embedding is a pure function of the prompt and
the regex-engine hit counts, mirroring a source function that consults no
randomness and no mutable state. -/
theorem classify_total_spec (rx : TaskType → ℕ) (prompt : String) :
    (1 ≤ (classify rx prompt).complexity ∧ (classify rx prompt).complexity ≤ 10)
    ∧ (0 ≤ (classify rx prompt).confidence ∧ (classify rx prompt).confidence ≤ 1)
    ∧ (0 ≤ (classify rx prompt).signals.token_length
        ∧ (classify rx prompt).signals.token_length ≤ 10)
    ∧ (0 ≤ (classify rx prompt).signals.task_type_match
        ∧ (classify rx prompt).signals.task_type_match ≤ 10)
    ∧ (0 ≤ (classify rx prompt).signals.reasoning_depth
        ∧ (classify rx prompt).signals.reasoning_depth ≤ 10)
    ∧ (0 ≤ (classify rx prompt).signals.domain_specificity
        ∧ (classify rx prompt).signals.domain_specificity ≤ 10)
    ∧ (0 ≤ (classify rx prompt).signals.context_needs
        ∧ (classify rx prompt).signals.context_needs ≤ 10)
    ∧ (0 ≤ (classify rx prompt).signals.vocabulary_complexity
        ∧ (classify rx prompt).signals.vocabulary_complexity ≤ 10)
    ∧ (classify rx prompt).signals
        = (compute_complexity prompt (detect_task_type rx prompt).1
            (detect_task_type rx prompt).2).2 := by
  have hconf := detect_confidence_bounds rx prompt
  have hb := compute_complexity_bounds prompt (detect_task_type rx prompt).1
    (detect_task_type rx prompt).2 hconf.1 hconf.2
  simp only [classify]
  exact ⟨hb.1, hconf, hb.2.1, hb.2.2.1, hb.2.2.2.1, hb.2.2.2.2.1,
    hb.2.2.2.2.2.1, hb.2.2.2.2.2.2, trivial⟩

/-- C7 (amended): the top entry of the sorted score list is a maximiser of
the category scores; when its score is zero, classification returns the QA
default at confidence exactly 0.3 (the division is not applied); when it is
positive, the returned confidence equals
`round(min(1, top / (top + second + 0.001)), 3)` — the source rounds the
clamped quotient to three decimal places before returning it. -/
theorem detect_confidence_formula_amended (rx : TaskType → ℕ) (prompt : String) :
    (∀ x ∈ scoresList rx (lowerChars prompt),
        x.2 ≤ ((sortScoresDesc (scoresList rx (lowerChars prompt))).getD 0
          (TaskType.QA, 0)).2)
    ∧ ((sortScoresDesc (scoresList rx (lowerChars prompt))).getD 0 (TaskType.QA, 0)
        ∈ scoresList rx (lowerChars prompt))
    ∧ (((sortScoresDesc (scoresList rx (lowerChars prompt))).getD 0
          (TaskType.QA, 0)).2 = 0 →
        detect_task_type rx prompt = (TaskType.QA, 3 / 10))
    ∧ (0 < ((sortScoresDesc (scoresList rx (lowerChars prompt))).getD 0
          (TaskType.QA, 0)).2 →
        detect_task_type rx prompt
          = (((sortScoresDesc (scoresList rx (lowerChars prompt))).getD 0
              (TaskType.QA, 0)).1,
             pyround (min 1
               (((sortScoresDesc (scoresList rx (lowerChars prompt))).getD 0
                   (TaskType.QA, 0)).2
                 / (((sortScoresDesc (scoresList rx (lowerChars prompt))).getD 0
                     (TaskType.QA, 0)).2
                   + ((sortScoresDesc (scoresList rx (lowerChars prompt))).getD 1
                     (TaskType.QA, 0)).2 + 1 / 1000))) 3)) := by
  have hlen : (scoresList rx (lowerChars prompt)).length = 7 :=
    scoresList_length rx _
  have hlne : scoresList rx (lowerChars prompt) ≠ [] := by
    intro h
    rw [h] at hlen
    exact absurd hlen (by norm_num)
  refine ⟨fun x hx => sortScoresDesc_head_max hx,
    sortScoresDesc_head_mem hlne, ?_, ?_⟩
  · intro h0
    simp only [detect_task_type]
    rw [if_pos h0]
  · intro hpos
    have hne : ((sortScoresDesc (scoresList rx (lowerChars prompt))).getD 0
        (TaskType.QA, 0)).2 ≠ 0 := ne_of_gt hpos
    simp only [detect_task_type]
    rw [if_neg hne]

/-- Counterexample to C7 as stated: on the prompt `"story proof"` (with no
regex pattern matching, which a hand check of the 33 patterns confirms) the
top two category scores are both 1, so the top score is positive, and the
code returns confidence 0.5 — the rounded value — which differs from the
unrounded clamped quotient `1 / (1 + 1 + 0.001)` the claim asserts. -/
theorem confidence_formula_counterexample :
    0 < ((sortScoresDesc (scoresList (fun _ => 0) (lowerChars "story proof"))).getD 0
        (TaskType.QA, 0)).2
    ∧ ((sortScoresDesc (scoresList (fun _ => 0) (lowerChars "story proof"))).getD 0
        (TaskType.QA, 0)).2 = 1
    ∧ ((sortScoresDesc (scoresList (fun _ => 0) (lowerChars "story proof"))).getD 1
        (TaskType.QA, 0)).2 = 1
    ∧ (detect_task_type (fun _ => 0) "story proof").2 = 1 / 2
    ∧ (detect_task_type (fun _ => 0) "story proof").2
        ≠ min 1 (max 0 ((1:ℚ) / (1 + 1 + 1 / 1000))) := by
  exact ⟨by decide, by decide, by decide, by decide, by decide⟩

/-- Witness for the amended C7: on `"story proof"` the positive-top-score
branch applies and yields the rounded confidence. -/
theorem detect_confidence_formula_amended_witness :
    0 < ((sortScoresDesc (scoresList (fun _ => 0) (lowerChars "story proof"))).getD 0
        (TaskType.QA, 0)).2
    ∧ detect_task_type (fun _ => 0) "story proof"
        = (((sortScoresDesc (scoresList (fun _ => 0) (lowerChars "story proof"))).getD 0
            (TaskType.QA, 0)).1,
           pyround (min 1
             (((sortScoresDesc (scoresList (fun _ => 0) (lowerChars "story proof"))).getD 0
                 (TaskType.QA, 0)).2
               / (((sortScoresDesc (scoresList (fun _ => 0) (lowerChars "story proof"))).getD 0
                   (TaskType.QA, 0)).2
                 + ((sortScoresDesc (scoresList (fun _ => 0) (lowerChars "story proof"))).getD 1
                   (TaskType.QA, 0)).2 + 1 / 1000))) 3) := by
  have h := (detect_confidence_formula_amended (fun _ => 0) "story proof").2.2.2
  exact ⟨by decide, h (by decide)⟩

/-- A prompt splitting into zero words consists only of whitespace. -/
theorem wordsAux_eq_nil :
    ∀ (cs acc : List Char), wordsAux cs acc = [] →
      acc = [] ∧ ∀ c ∈ cs, c.isWhitespace = true := by
  intro cs
  induction cs with
  | nil =>
    intro acc h
    unfold wordsAux at h
    by_cases ha : acc.isEmpty
    · exact ⟨List.isEmpty_iff.1 ha, by intro c hc; exact absurd hc (List.not_mem_nil c)⟩
    · rw [if_neg ha] at h
      exact absurd h (by simp)
  | cons c rest ih =>
    intro acc h
    unfold wordsAux at h
    by_cases hc : c.isWhitespace
    · rw [if_pos hc] at h
      by_cases ha : acc.isEmpty
      · rw [if_pos ha] at h
        obtain ⟨_, hall⟩ := ih [] h
        refine ⟨List.isEmpty_iff.1 ha, ?_⟩
        intro d hd
        rcases List.mem_cons.1 hd with rfl | hd
        · exact hc
        · exact hall d hd
      · rw [if_neg ha] at h
        exact absurd h (by simp)
    · rw [if_neg hc] at h
      obtain ⟨hacc, _⟩ := ih (c :: acc) h
      exact absurd hacc (by simp)

/-- Lowercasing preserves whitespace. -/
theorem toLower_whitespace {c : Char} (h : c.isWhitespace = true) :
    (Char.toLower c).isWhitespace = true := by
  simp only [Char.isWhitespace, Bool.or_eq_true, decide_eq_true_eq] at h
  rcases h with ((h | h) | h) | h <;> (subst h; decide)

/-- Lowercasing an all-whitespace prompt yields all-whitespace characters. -/
theorem lowerChars_whitespace {s : String} (h : ∀ c ∈ s.data, c.isWhitespace = true) :
    ∀ c ∈ lowerChars s, c.isWhitespace = true := by
  intro c hc
  rcases List.mem_map.1 hc with ⟨d, hd, rfl⟩
  exact toLower_whitespace (h d hd)

/-- A table whose every entry holds a non-whitespace character scores zero
substring hits against an all-whitespace prompt. -/
theorem countP_infix_zero {ws : List String} {pl : List Char}
    (hpl : ∀ c ∈ pl, c.isWhitespace = true)
    (hws : ∀ w ∈ ws, ∃ c ∈ w.data, c.isWhitespace = false) :
    ws.countP (fun w => decide (w.data <:+: pl)) = 0 := by
  rw [List.countP_eq_zero]
  intro w hw
  simp only [decide_eq_true_eq]
  intro hinf
  obtain ⟨c, hc, hcf⟩ := hws w hw
  have := hpl c (hinf.subset hc)
  simp [this] at hcf

/-- Every keyword of every task category contains a non-whitespace
character. -/
theorem keywords_nonws :
    ∀ t, ∀ kw ∈ KEYWORDS t, ∃ c ∈ kw.data, c.isWhitespace = false := by
  intro t
  cases t <;> decide

/-- Every reasoning marker contains a non-whitespace character. -/
theorem reasoning_nonws :
    ∀ w ∈ REASONING_WORDS, ∃ c ∈ w.data, c.isWhitespace = false := by
  decide

/-- Every domain-vocabulary term contains a non-whitespace character. -/
theorem domain_nonws :
    ∀ w ∈ DOMAIN_VOCAB_ALL, ∃ c ∈ w.data, c.isWhitespace = false := by
  decide

/-- Every context back-reference contains a non-whitespace character. -/
theorem contextrefs_nonws :
    ∀ w ∈ CONTEXT_REFS, ∃ c ∈ w.data, c.isWhitespace = false := by
  decide

/-- With no keyword hits and no regex hits, a category scores zero. -/
theorem category_score_zero (rx : TaskType → ℕ) (pl : List Char) (t : TaskType)
    (hk : keyword_hits pl t = 0) (hr : rx t = 0) :
    category_score rx pl t = 0 := by
  simp [category_score, hk, hr]

/-- On an all-whitespace prompt with no regex hits, every category scores
zero and `detect_task_type` falls back to QA at confidence 0.3. -/
theorem detect_whitespace (rx : TaskType → ℕ) (prompt : String)
    (hpl : ∀ c ∈ lowerChars prompt, c.isWhitespace = true)
    (hrx : ∀ t, rx t = 0) :
    detect_task_type rx prompt = (TaskType.QA, 3 / 10) := by
  have hsc : scoresList rx (lowerChars prompt) = TASK_ORDER.map (fun t => (t, 0)) := by
    unfold scoresList
    apply List.map_congr_left
    intro t _
    have hk : keyword_hits (lowerChars prompt) t = 0 :=
      countP_infix_zero hpl (keywords_nonws t)
    rw [category_score_zero rx _ t hk (hrx t)]
  simp only [detect_task_type, hsc]
  decide

/-- C10: on an empty or all-whitespace prompt (zero words, hence no regex
hit either — no pattern of the table matches pure whitespace, injected as
the zero hit count), classification still returns a result: the
average-word-length divisor is the guarded `max 1 word_count`, the
vocabulary-complexity signal evaluates to 0 after its floor, the default QA
category is returned at confidence 0.3, and the weighted sum is clamped up
to the minimum complexity 1.0. -/
theorem classify_whitespace_spec (rx : TaskType → ℕ) (prompt : String)
    (hws : pywords prompt = []) (hrx : ∀ t, rx t = 0) :
    (classify rx prompt).signals.vocabulary_complexity = 0
    ∧ (classify rx prompt).complexity = 1
    ∧ (classify rx prompt).task_type = TaskType.QA
    ∧ (classify rx prompt).confidence = 3 / 10 := by
  have hdata : ∀ c ∈ prompt.data, c.isWhitespace = true :=
    (wordsAux_eq_nil prompt.data [] hws).2
  have hpl : ∀ c ∈ lowerChars prompt, c.isWhitespace = true :=
    lowerChars_whitespace hdata
  have hdet := detect_whitespace rx prompt hpl hrx
  have hreason : REASONING_WORDS.countP
      (fun w => decide (w.data <:+: lowerChars prompt)) = 0 :=
    countP_infix_zero hpl reasoning_nonws
  have hdom : DOMAIN_VOCAB_ALL.countP
      (fun w => decide (w.data <:+: lowerChars prompt)) = 0 :=
    countP_infix_zero hpl domain_nonws
  have href : CONTEXT_REFS.countP
      (fun w => decide (w.data <:+: lowerChars prompt)) = 0 :=
    countP_infix_zero hpl contextrefs_nonws
  simp only [classify, hdet]
  simp only [compute_complexity, hws, hreason, hdom, href]
  by_cases hnl : 3 < prompt.data.countP (fun ch => ch = '\n')
  · simp only [if_pos hnl]
    refine ⟨?_, ?_, trivial, trivial⟩ <;> decide
  · simp only [if_neg hnl]
    refine ⟨?_, ?_, trivial, trivial⟩ <;> decide

/-- Witness for C10: the five-newline all-whitespace prompt (which even
takes the newline-density branch of the context signal) classifies to QA at
confidence 0.3 with vocabulary signal 0 and complexity clamped up to 1. -/
theorem classify_whitespace_spec_witness :
    pywords "\n\n\n\n\n" = []
    ∧ (classify (fun _ => 0) "\n\n\n\n\n").signals.vocabulary_complexity = 0
    ∧ (classify (fun _ => 0) "\n\n\n\n\n").complexity = 1
    ∧ (classify (fun _ => 0) "\n\n\n\n\n").task_type = TaskType.QA
    ∧ (classify (fun _ => 0) "\n\n\n\n\n").confidence = 3 / 10 := by
  have h := classify_whitespace_spec (fun _ => 0) "\n\n\n\n\n" (by decide)
    (fun _ => rfl)
  exact ⟨by decide, h.1, h.2.1, h.2.2.1, h.2.2.2⟩
